import Mathlib

/-!
# PretzelAI operator: the reconciliation loop

A shallow embedding of `controllers/pretzelai_controller.go` and of the schema in
`api/v1alpha1/pretzelai_types.go`.

* Kubernetes objects are structures whose fields keep their Go names.  A Go pointer
  (`*int32`, `*metav1.Time`) is an `Option`; `int32` values are `Int` (the controller
  only copies and compares them, it never does arithmetic on them).
* A Go `map[string]string` is the list of its entries in increasing key order, so that
  `reflect.DeepEqual` on two maps is equality of the two lists.
* The reconciler `r` (its embedded `client.Client` and its `Scheme`) is a structure
  holding the object store, one list per kind, looked up by `(Namespace, Name)`.
  Every client call consumes one tick of `r.tick`; the call fails with a transient
  error when its tick is listed in `r.faults`.  Every write call (create, update,
  status update) is appended to `r.writes`, whether or not it succeeds.
* The store is either the fake client of the controller test, which keeps an object
  exactly as it was written, or an API server (`r.defaulting`), which fills the default
  of the one field the controller compares and does not set: an empty
  `ServicePort.Protocol` becomes `TCP`.  A create or an update writes the stored object
  back into the object it was given.  The store removes nothing on its own.
* A Go run-time panic (index out of range) is the outcome `Outcome.panic`.
-/

set_option linter.dupNamespace false

namespace PretzelAIOperator

/-! ## Data model -/

/-- The part of `metav1.Time` that `IsZero` inspects. -/
structure Time where
  sec : Int := 0
  nsec : Int := 0
deriving DecidableEq

/-- The method `(*metav1.Time).IsZero`: a nil pointer or the zero instant. -/
def Time.IsZero : Option Time → Bool
  | none => true
  | some t => t.sec == 0 && t.nsec == 0

structure OwnerReference where
  APIVersion : String := ""
  Kind : String := ""
  Name : String := ""
  UID : String := ""
  Controller : Option Bool := none
  BlockOwnerDeletion : Option Bool := none
deriving DecidableEq

structure ObjectMeta where
  Name : String := ""
  Namespace : String := ""
  UID : String := ""
  ResourceVersion : String := ""
  Labels : List (String × String) := []
  Annotations : List (String × String) := []
  Finalizers : List String := []
  DeletionTimestamp : Option Time := none
  OwnerReferences : List OwnerReference := []
deriving DecidableEq

/-- The type `types.NamespacedName`, also `client.ObjectKey` and the payload of
`ctrl.Request`. -/
structure NamespacedName where
  Namespace : String := ""
  Name : String := ""
deriving DecidableEq

/-- The store key of an object. -/
abbrev ObjectMeta.key (m : ObjectMeta) : NamespacedName := ⟨m.Namespace, m.Name⟩

structure PretzelAISpec where
  Replicas : Option Int := none
  Image : String := ""
  ConfigMapName : String := ""
  ServiceType : String := ""
deriving DecidableEq

structure PretzelAIStatus where
  ReadyReplicas : Int := 0
  AvailableReplicas : Int := 0
  ServiceStatus : String := ""
  ConfigMapStatus : String := ""
deriving DecidableEq

structure PretzelAI where
  ObjectMeta : ObjectMeta := {}
  Spec : PretzelAISpec := {}
  Status : PretzelAIStatus := {}
deriving DecidableEq

structure ContainerPort where
  Name : String := ""
  HostPort : Int := 0
  ContainerPort : Int := 0
  Protocol : String := ""
  HostIP : String := ""
deriving DecidableEq

structure Container where
  Name : String := ""
  Image : String := ""
  ImagePullPolicy : String := ""
  Ports : List ContainerPort := []
deriving DecidableEq

structure PodSpec where
  Containers : List Container := []
deriving DecidableEq

structure PodTemplateSpec where
  ObjectMeta : ObjectMeta := {}
  Spec : PodSpec := {}
deriving DecidableEq

structure LabelSelector where
  MatchLabels : List (String × String) := []
deriving DecidableEq

structure DeploymentSpec where
  Replicas : Option Int := none
  Selector : Option LabelSelector := none
  Template : PodTemplateSpec := {}
deriving DecidableEq

structure DeploymentStatus where
  Replicas : Int := 0
  ReadyReplicas : Int := 0
  AvailableReplicas : Int := 0
deriving DecidableEq

structure Deployment where
  ObjectMeta : ObjectMeta := {}
  Spec : DeploymentSpec := {}
  Status : DeploymentStatus := {}
deriving DecidableEq

/-- The type `intstr.IntOrString`; `Type_` (Go: `Type`) is 0 for an integer and 1 for a
string. -/
structure IntOrString where
  Type_ : Nat := 0
  IntVal : Int := 0
  StrVal : String := ""
deriving DecidableEq

/-- The function `intstr.FromInt`. -/
def FromInt (val : Int) : IntOrString := { Type_ := 0, IntVal := val }

structure ServicePort where
  Name : String := ""
  Protocol : String := ""
  AppProtocol : Option String := none
  Port : Int := 0
  TargetPort : IntOrString := {}
  NodePort : Int := 0
deriving DecidableEq

structure ServiceSpec where
  Ports : List ServicePort := []
  Selector : List (String × String) := []
  Type_ : String := ""
deriving DecidableEq

structure Service where
  ObjectMeta : ObjectMeta := {}
  Spec : ServiceSpec := {}
deriving DecidableEq

structure ConfigMap where
  ObjectMeta : ObjectMeta := {}
  Data : List (String × String) := []
deriving DecidableEq

/-- The constant `corev1.ServiceTypeClusterIP`. -/
def ServiceTypeClusterIP : String := "ClusterIP"

/-- The constant `corev1.PullIfNotPresent`. -/
def PullIfNotPresent : String := "IfNotPresent"

/-! ## The client -/

/-- The errors a client call can return. -/
inductive ApiError where
  | notFound
  | alreadyExists
  | transient
  | noKind
  | crossNamespace
deriving DecidableEq

/-- A write call issued to the store, with the object it carried. -/
inductive Write where
  | updatePretzelAI (o : PretzelAI)
  | updateStatus (o : PretzelAI)
  | createConfigMap (o : ConfigMap)
  | updateConfigMap (o : ConfigMap)
  | createDeployment (o : Deployment)
  | updateDeployment (o : Deployment)
  | createService (o : Service)
  | updateService (o : Service)
deriving DecidableEq

/-- A write call on an owned resource (Workload, Exposure or ConfigBundle). -/
def Write.isOwned : Write → Bool
  | .updatePretzelAI _ => false
  | .updateStatus _ => false
  | _ => true

/-- A status write on the desired-state object. -/
def Write.isStatus : Write → Bool
  | .updateStatus _ => true
  | _ => false

/-- The result of a Go function that returns `(value, error)` and may panic. -/
inductive Outcome (α : Type) where
  | ok (a : α)
  | err (e : ApiError)
  | panic
deriving DecidableEq

/-- The struct `PretzelAIReconciler`: the embedded client (the store, its fault schedule,
its clock and the log of write calls) and the scheme (`Scheme` tells whether the
PretzelAI kind is registered in it).  The field `defaulting` tells whether the store is
an API server that applies its defaults to what is written (`true`) or the fake client
that keeps it as written (`false`). -/
structure PretzelAIReconciler where
  Scheme : Bool := true
  defaulting : Bool := false
  pretzelais : List PretzelAI := []
  configMaps : List ConfigMap := []
  deployments : List Deployment := []
  services : List Service := []
  faults : List Nat := []
  tick : Nat := 0
  writes : List Write := []
deriving DecidableEq

/-- First object of the list stored under `k`. -/
def lookup {α : Type} (key : α → NamespacedName) (k : NamespacedName) (l : List α) :
    Option α :=
  l.find? (fun x => key x == k)

/-- Replace what is stored under the key of `v` by `v`. -/
def store {α : Type} (key : α → NamespacedName) (v : α) (l : List α) : List α :=
  l.map (fun x => if key x == key v then v else x)

/-- The default the API server applies to a port of a Service: an empty protocol is
`TCP`. -/
def defaultPort (p : ServicePort) : ServicePort :=
  if p.Protocol == "" then { p with Protocol := "TCP" } else p

/-- The Service as an API server stores it: every port with its default protocol. -/
def defaultService (o : Service) : Service :=
  { o with Spec := { o.Spec with Ports := o.Spec.Ports.map defaultPort } }

namespace PretzelAIReconciler

/-- The Service the store keeps, and writes back, when `o` is created or updated. -/
def served (r : PretzelAIReconciler) (o : Service) : Service :=
  if r.defaulting then defaultService o else o

/-- Whether the call made now fails with a transient error. -/
def faulty (r : PretzelAIReconciler) : Bool := r.faults.contains r.tick

/-- The reconciler after one more client call. -/
def advance (r : PretzelAIReconciler) : PretzelAIReconciler := { r with tick := r.tick + 1 }

/-- The reconciler after one more write call, logged. -/
def record (r : PretzelAIReconciler) (c : Write) : PretzelAIReconciler :=
  { r with tick := r.tick + 1, writes := r.writes ++ [c] }

def GetPretzelAI (r : PretzelAIReconciler) (k : NamespacedName) :
    Except ApiError PretzelAI × PretzelAIReconciler :=
  (if r.faulty then .error .transient
   else match lookup (fun o => o.ObjectMeta.key) k r.pretzelais with
     | some o => .ok o
     | none => .error .notFound,
   r.advance)

def GetConfigMap (r : PretzelAIReconciler) (k : NamespacedName) :
    Except ApiError ConfigMap × PretzelAIReconciler :=
  (if r.faulty then .error .transient
   else match lookup (fun o => o.ObjectMeta.key) k r.configMaps with
     | some o => .ok o
     | none => .error .notFound,
   r.advance)

def GetDeployment (r : PretzelAIReconciler) (k : NamespacedName) :
    Except ApiError Deployment × PretzelAIReconciler :=
  (if r.faulty then .error .transient
   else match lookup (fun o => o.ObjectMeta.key) k r.deployments with
     | some o => .ok o
     | none => .error .notFound,
   r.advance)

def GetService (r : PretzelAIReconciler) (k : NamespacedName) :
    Except ApiError Service × PretzelAIReconciler :=
  (if r.faulty then .error .transient
   else match lookup (fun o => o.ObjectMeta.key) k r.services with
     | some o => .ok o
     | none => .error .notFound,
   r.advance)

/-- The call `r.Update` on the desired-state object: metadata and spec are replaced, the
status subresource keeps its stored value.  Removing an object whose finalizer list
became empty is left to the platform and is not part of the store. -/
def UpdatePretzelAI (r : PretzelAIReconciler) (o : PretzelAI) :
    Option ApiError × PretzelAIReconciler :=
  if r.faulty then (some .transient, r.record (.updatePretzelAI o))
  else match lookup (fun o => o.ObjectMeta.key) o.ObjectMeta.key r.pretzelais with
    | none => (some .notFound, r.record (.updatePretzelAI o))
    | some old =>
      (none, { r.record (.updatePretzelAI o) with
                pretzelais := store (fun o => o.ObjectMeta.key)
                  { o with Status := old.Status } r.pretzelais })

/-- The call `r.Status().Update`: only the status of the stored object is replaced. -/
def StatusUpdate (r : PretzelAIReconciler) (o : PretzelAI) :
    Option ApiError × PretzelAIReconciler :=
  if r.faulty then (some .transient, r.record (.updateStatus o))
  else match lookup (fun o => o.ObjectMeta.key) o.ObjectMeta.key r.pretzelais with
    | none => (some .notFound, r.record (.updateStatus o))
    | some old =>
      (none, { r.record (.updateStatus o) with
                pretzelais := store (fun o => o.ObjectMeta.key)
                  { old with Status := o.Status } r.pretzelais })

def CreateConfigMap (r : PretzelAIReconciler) (o : ConfigMap) :
    Option ApiError × PretzelAIReconciler :=
  if r.faulty then (some .transient, r.record (.createConfigMap o))
  else match lookup (fun o => o.ObjectMeta.key) o.ObjectMeta.key r.configMaps with
    | some _ => (some .alreadyExists, r.record (.createConfigMap o))
    | none => (none, { r.record (.createConfigMap o) with configMaps := r.configMaps ++ [o] })

def UpdateConfigMap (r : PretzelAIReconciler) (o : ConfigMap) :
    Option ApiError × PretzelAIReconciler :=
  if r.faulty then (some .transient, r.record (.updateConfigMap o))
  else match lookup (fun o => o.ObjectMeta.key) o.ObjectMeta.key r.configMaps with
    | none => (some .notFound, r.record (.updateConfigMap o))
    | some _ =>
      (none, { r.record (.updateConfigMap o) with
                configMaps := store (fun o => o.ObjectMeta.key) o r.configMaps })

def CreateDeployment (r : PretzelAIReconciler) (o : Deployment) :
    Option ApiError × PretzelAIReconciler :=
  if r.faulty then (some .transient, r.record (.createDeployment o))
  else match lookup (fun o => o.ObjectMeta.key) o.ObjectMeta.key r.deployments with
    | some _ => (some .alreadyExists, r.record (.createDeployment o))
    | none => (none, { r.record (.createDeployment o) with deployments := r.deployments ++ [o] })

def UpdateDeployment (r : PretzelAIReconciler) (o : Deployment) :
    Option ApiError × PretzelAIReconciler :=
  if r.faulty then (some .transient, r.record (.updateDeployment o))
  else match lookup (fun o => o.ObjectMeta.key) o.ObjectMeta.key r.deployments with
    | none => (some .notFound, r.record (.updateDeployment o))
    | some _ =>
      (none, { r.record (.updateDeployment o) with
                deployments := store (fun o => o.ObjectMeta.key) o r.deployments })

def CreateService (r : PretzelAIReconciler) (o : Service) :
    Option ApiError × PretzelAIReconciler :=
  if r.faulty then (some .transient, r.record (.createService o))
  else match lookup (fun o => o.ObjectMeta.key) o.ObjectMeta.key r.services with
    | some _ => (some .alreadyExists, r.record (.createService o))
    | none =>
      (none, { r.record (.createService o) with services := r.services ++ [r.served o] })

def UpdateService (r : PretzelAIReconciler) (o : Service) :
    Option ApiError × PretzelAIReconciler :=
  if r.faulty then (some .transient, r.record (.updateService o))
  else match lookup (fun o => o.ObjectMeta.key) o.ObjectMeta.key r.services with
    | none => (some .notFound, r.record (.updateService o))
    | some _ =>
      (none, { r.record (.updateService o) with
                services := store (fun o => o.ObjectMeta.key) (r.served o) r.services })

end PretzelAIReconciler

/-- The function `client.IgnoreNotFound`. -/
def IgnoreNotFound : Option ApiError → Option ApiError
  | some .notFound => none
  | e => e

/-- The function `ctrl.SetControllerReference` on an object that carries no owner reference yet:
it refuses an owner in another namespace and an owner whose kind the scheme does not
know, and otherwise stamps the controller reference. -/
def SetControllerReference (owner : PretzelAI) (object : ObjectMeta) (scheme : Bool) :
    Except ApiError ObjectMeta :=
  if owner.ObjectMeta.Namespace != "" &&
      (object.Namespace == "" || owner.ObjectMeta.Namespace != object.Namespace) then
    .error .crossNamespace
  else if !scheme then .error .noKind
  else .ok { object with
    OwnerReferences := object.OwnerReferences ++
      [{ APIVersion := "pretzelai.pretzelai.local/v1alpha1", Kind := "PretzelAI",
         Name := owner.ObjectMeta.Name, UID := owner.ObjectMeta.UID,
         Controller := some true, BlockOwnerDeletion := some true }] }

/-! ## The controller -/

/-- The finalizer token, `pretzelAIFinalizer` in `Reconcile`. -/
def pretzelAIFinalizer : String := "pretzelai.finalizers.pretzelai.local"

/-- The helper `containsString`: the loop returns at the first equal item. -/
def containsString : List String → String → Bool
  | [], _ => false
  | item :: slice, s => if item == s then true else containsString slice s

/-- The helper `removeString`: the loop appends every item different from `s` to `result`. -/
def removeString (slice : List String) (s : String) : List String :=
  slice.foldl (fun result item => if item != s then result ++ [item] else result) []

/-- The container port of the Workload, `containerPort` in `ensureDeployment`. -/
def containerPort : Int := 8888

/-- The object `dep` that `ensureDeployment` builds, before the owner reference. -/
def desiredDeployment (pretzelAI : PretzelAI) (replicas : Int) : Deployment :=
  { ObjectMeta := { Name := pretzelAI.ObjectMeta.Name,
                    Namespace := pretzelAI.ObjectMeta.Namespace },
    Spec := {
      Replicas := some replicas,
      Selector := some { MatchLabels := [("app", pretzelAI.ObjectMeta.Name)] },
      Template := {
        ObjectMeta := { Labels := [("app", pretzelAI.ObjectMeta.Name)] },
        Spec := { Containers := [{
          Name := "pretzelai",
          Image := "pretzelai:local",
          ImagePullPolicy := PullIfNotPresent,
          Ports := [{ ContainerPort := containerPort }] }] } } } }

/-- The expression `d.Template.Spec.Containers[0].Image` on the spec `d` of a
Deployment; `none` stands for the index being out of range. -/
def firstImage (d : DeploymentSpec) : Option String :=
  d.Template.Spec.Containers.head?.map (fun c => c.Image)

/-- The drift test of `ensureDeployment`, the value of `needsUpdate`, from
`existing.Spec` and `dep.Spec`. -/
def needsUpdate (existing dep : DeploymentSpec) : Bool :=
  let needsUpdate := false
  let needsUpdate :=
    if existing.Replicas == none || dep.Replicas == none ||
        existing.Replicas != dep.Replicas then true else needsUpdate
  let needsUpdate :=
    if existing.Template.Spec.Containers.length > 0 &&
        firstImage existing != firstImage dep then true else needsUpdate
  needsUpdate

/-- The assignment `existing.Spec.Template.Spec.Containers[0].Image = image`;
`none` when the index is out of range. -/
def setFirstImage (existing : Deployment) (image : String) : Option Deployment :=
  match existing.Spec.Template.Spec.Containers with
  | [] => none
  | c :: cs =>
    some { existing with
      Spec := { existing.Spec with
        Template := { existing.Spec.Template with
          Spec := { existing.Spec.Template.Spec with
            Containers := { c with Image := image } :: cs } } } }

/-- The method `ensureDeployment` creates or updates a Deployment for the PretzelAI CR. -/
def ensureDeployment (r : PretzelAIReconciler) (pretzelAI : PretzelAI) (replicas : Int) :
    Outcome Deployment × PretzelAIReconciler :=
  let dep := desiredDeployment pretzelAI replicas
  match SetControllerReference pretzelAI dep.ObjectMeta r.Scheme with
  | .error e => (.err e, r)
  | .ok m =>
    let dep := { dep with ObjectMeta := m }
    match r.GetDeployment ⟨dep.ObjectMeta.Namespace, dep.ObjectMeta.Name⟩ with
    | (.error err, r1) =>
      if IgnoreNotFound (some err) != none then (.err err, r1)
      else
        match r1.CreateDeployment dep with
        | (some e, r2) => (.err e, r2)
        | (none, r2) => (.ok dep, r2)
    | (.ok existing, r1) =>
      if needsUpdate existing.Spec dep.Spec then
        let existing := { existing with
          Spec := { existing.Spec with Replicas := dep.Spec.Replicas } }
        match firstImage dep.Spec with
        | none => (.panic, r1)
        | some image =>
          match setFirstImage existing image with
          | none => (.panic, r1)
          | some existing =>
            match r1.UpdateDeployment existing with
            | (some e, r2) => (.err e, r2)
            | (none, r2) => (.ok existing, r2)
      else (.ok existing, r1)

/-- The object `svc` that `ensureService` builds, before the owner reference. -/
def desiredService (pretzelAI : PretzelAI) : Service :=
  { ObjectMeta := { Name := pretzelAI.ObjectMeta.Name,
                    Namespace := pretzelAI.ObjectMeta.Namespace },
    Spec := {
      Selector := [("app", pretzelAI.ObjectMeta.Name)],
      Ports := [{ Port := 80, TargetPort := FromInt 8888 }],
      Type_ := ServiceTypeClusterIP } }

/-- The method `ensureService` creates or updates a Service for the PretzelAI CR.  After
a successful `Create` or `Update` the pointer it returns holds the object as the store
wrote it back. -/
def ensureService (r : PretzelAIReconciler) (pretzelAI : PretzelAI) :
    Outcome Service × PretzelAIReconciler :=
  let svc := desiredService pretzelAI
  match SetControllerReference pretzelAI svc.ObjectMeta r.Scheme with
  | .error e => (.err e, r)
  | .ok m =>
    let svc := { svc with ObjectMeta := m }
    match r.GetService ⟨svc.ObjectMeta.Namespace, svc.ObjectMeta.Name⟩ with
    | (.error err, r1) =>
      if IgnoreNotFound (some err) != none then (.err err, r1)
      else
        match r1.CreateService svc with
        | (some e, r2) => (.err e, r2)
        | (none, r2) => (.ok (r1.served svc), r2)
    | (.ok existing, r1) =>
      if svc.Spec.Ports != existing.Spec.Ports then
        let existing := { existing with
          Spec := { existing.Spec with Ports := svc.Spec.Ports } }
        match r1.UpdateService existing with
        | (some e, r2) => (.err e, r2)
        | (none, r2) => (.ok (r1.served existing), r2)
      else (.ok existing, r1)

/-- The object `configMap` that step 3 of `Reconcile` builds, before the owner
reference. -/
def desiredConfigMap (pretzelAI : PretzelAI) (req : NamespacedName) : ConfigMap :=
  { ObjectMeta := { Name := pretzelAI.Spec.ConfigMapName, Namespace := req.Namespace },
    Data := [("config.yaml", "example: value")] }

/-- Step 3 of `Reconcile`: ensure the ConfigMap exists if the CR names one.  The
result is the error the step returns with, `none` when the pass goes on. -/
def reconcileConfigMap (r : PretzelAIReconciler) (pretzelAI : PretzelAI)
    (req : NamespacedName) : Option ApiError × PretzelAIReconciler :=
  if pretzelAI.Spec.ConfigMapName != "" then
    let configMap := desiredConfigMap pretzelAI req
    match SetControllerReference pretzelAI configMap.ObjectMeta r.Scheme with
    | .error e => (some e, r)
    | .ok m =>
      let configMap := { configMap with ObjectMeta := m }
      match r.GetConfigMap ⟨configMap.ObjectMeta.Namespace, configMap.ObjectMeta.Name⟩ with
      | (.error err, r1) =>
        if IgnoreNotFound (some err) != none then (some err, r1)
        else r1.CreateConfigMap configMap
      | (.ok existing, r1) =>
        if configMap.Data != existing.Data then
          r1.UpdateConfigMap { existing with Data := configMap.Data }
        else (none, r1)
  else (none, r)

/-- Step 5 of `Reconcile`: the status the pass writes.  `ensureService` returns a
non-nil Service whenever it returns no error, so the test `svc != nil` holds. -/
def projectStatus (pretzelAI : PretzelAI) (dep : Deployment) (svc : Service) : PretzelAI :=
  let pretzelAI :=
    if pretzelAI.Status.ReadyReplicas != dep.Status.ReadyReplicas then
      { pretzelAI with
        Status := { pretzelAI.Status with ReadyReplicas := dep.Status.ReadyReplicas } }
    else pretzelAI
  let pretzelAI :=
    if pretzelAI.Status.AvailableReplicas != dep.Status.AvailableReplicas then
      { pretzelAI with
        Status := { pretzelAI.Status with AvailableReplicas := dep.Status.AvailableReplicas } }
    else pretzelAI
  { pretzelAI with Status := { pretzelAI.Status with ServiceStatus := svc.Spec.Type_ } }

/-- Step 4 of `Reconcile`: the variable `replicas`, 1 unless the spec sets it. -/
def requestedReplicas (pretzelAI : PretzelAI) : Int :=
  match pretzelAI.Spec.Replicas with
  | some n => n
  | none => 1

/-- Steps 3 to 5 of `Reconcile`, run on the object `pretzelAI` the pass holds after
the finalizer gate. -/
def reconcileOwned (r : PretzelAIReconciler) (pretzelAI : PretzelAI)
    (req : NamespacedName) : Outcome Unit × PretzelAIReconciler :=
  match reconcileConfigMap r pretzelAI req with
  | (some e, r1) => (.err e, r1)
  | (none, r1) =>
    let replicas := requestedReplicas pretzelAI
    match ensureDeployment r1 pretzelAI replicas with
    | (.err e, r2) => (.err e, r2)
    | (.panic, r2) => (.panic, r2)
    | (.ok dep, r2) =>
      match ensureService r2 pretzelAI with
      | (.err e, r3) => (.err e, r3)
      | (.panic, r3) => (.panic, r3)
      | (.ok svc, r3) =>
        match r3.StatusUpdate (projectStatus pretzelAI dep svc) with
        | (some e, r4) => (.err e, r4)
        | (none, r4) => (.ok (), r4)

/-- The method `Reconcile`: one pass for the desired-state object named by `req`. -/
def Reconcile (r : PretzelAIReconciler) (req : NamespacedName) :
    Outcome Unit × PretzelAIReconciler :=
  match r.GetPretzelAI req with
  | (.error err, r1) =>
    match IgnoreNotFound (some err) with
    | some e => (.err e, r1)
    | none => (.ok (), r1)
  | (.ok pretzelAI, r1) =>
    if !Time.IsZero pretzelAI.ObjectMeta.DeletionTimestamp then
      if containsString pretzelAI.ObjectMeta.Finalizers pretzelAIFinalizer then
        let pretzelAI := { pretzelAI with
          ObjectMeta := { pretzelAI.ObjectMeta with
            Finalizers := removeString pretzelAI.ObjectMeta.Finalizers pretzelAIFinalizer } }
        match r1.UpdatePretzelAI pretzelAI with
        | (some e, r2) => (.err e, r2)
        | (none, r2) => (.ok (), r2)
      else (.ok (), r1)
    else if !containsString pretzelAI.ObjectMeta.Finalizers pretzelAIFinalizer then
      let pretzelAI := { pretzelAI with
        ObjectMeta := { pretzelAI.ObjectMeta with
          Finalizers := pretzelAI.ObjectMeta.Finalizers ++ [pretzelAIFinalizer] } }
      match r1.UpdatePretzelAI pretzelAI with
      | (some e, r2) => (.err e, r2)
      | (none, r2) => reconcileOwned r2 pretzelAI req
    else reconcileOwned r1 pretzelAI req

/-! ## Sample inputs -/

/-- The desired-state object of the creation scenario of the spec (replicas 2, image
`x:latest`, bundle `cfg`, type ClusterIP), carrying the finalizer token. -/
def sampleCR : PretzelAI :=
  { ObjectMeta := { Name := "demo", Namespace := "default", UID := "u1",
                    Finalizers := [pretzelAIFinalizer] },
    Spec := { Replicas := some 2, Image := "x:latest", ConfigMapName := "cfg",
              ServiceType := "ClusterIP" } }

/-- The key of `sampleCR`. -/
def sampleReq : NamespacedName := ⟨"default", "demo"⟩

/-- A reconciler whose store holds `sampleCR` only. -/
def sampleR : PretzelAIReconciler := { pretzelais := [sampleCR] }

/-! ## Objects the controller sends to the store -/

/-- The owner reference `SetControllerReference` stamps for `owner`. -/
def controllerRef (owner : PretzelAI) : OwnerReference :=
  { APIVersion := "pretzelai.pretzelai.local/v1alpha1", Kind := "PretzelAI",
    Name := owner.ObjectMeta.Name, UID := owner.ObjectMeta.UID,
    Controller := some true, BlockOwnerDeletion := some true }

/-- The Workload `ensureDeployment` sends to `Create`: `dep` with its owner reference. -/
def ownedDeployment (pretzelAI : PretzelAI) (replicas : Int) : Deployment :=
  { desiredDeployment pretzelAI replicas with
    ObjectMeta := { (desiredDeployment pretzelAI replicas).ObjectMeta with
      OwnerReferences := [controllerRef pretzelAI] } }

/-- The Exposure `ensureService` sends to `Create`: `svc` with its owner reference. -/
def ownedService (pretzelAI : PretzelAI) : Service :=
  { desiredService pretzelAI with
    ObjectMeta := { (desiredService pretzelAI).ObjectMeta with
      OwnerReferences := [controllerRef pretzelAI] } }

/-- The ConfigBundle step 3 sends to `Create`: `configMap` with its owner reference. -/
def ownedConfigMap (pretzelAI : PretzelAI) (req : NamespacedName) : ConfigMap :=
  { desiredConfigMap pretzelAI req with
    ObjectMeta := { (desiredConfigMap pretzelAI req).ObjectMeta with
      OwnerReferences := [controllerRef pretzelAI] } }

/-- The live Workload after the two assignments of the update branch. -/
def patchedDeployment (existing : Deployment) (replicas : Int) (c : Container)
    (cs : List Container) : Deployment :=
  { existing with
    Spec := { existing.Spec with
      Replicas := some replicas,
      Template := { existing.Spec.Template with
        Spec := { existing.Spec.Template.Spec with
          Containers := { c with Image := "pretzelai:local" } :: cs } } } }

/-- The live Exposure after the assignment of the update branch. -/
def patchedService (existing : Service) (pretzelAI : PretzelAI) : Service :=
  { existing with Spec := { existing.Spec with Ports := (desiredService pretzelAI).Spec.Ports } }

/-- The payload of the ConfigBundle. -/
def desiredData : List (String × String) := [("config.yaml", "example: value")]

/-! ## Notions used in the statements -/

/-- The reconciler `k` client calls later, its store and its log unchanged. -/
def PretzelAIReconciler.later (r : PretzelAIReconciler) (k : Nat) : PretzelAIReconciler :=
  { r with tick := r.tick + k }

/-- The owned resources hold, in their watched fields, what `pretzelAI` asks for. -/
def Converged (r : PretzelAIReconciler) (pretzelAI : PretzelAI) (req : NamespacedName) :
    Prop :=
  (pretzelAI.Spec.ConfigMapName ≠ "" →
    ∃ c, lookup (fun o => o.ObjectMeta.key)
      ⟨req.Namespace, pretzelAI.Spec.ConfigMapName⟩ r.configMaps = some c ∧
      desiredData = c.Data) ∧
  (∃ d, lookup (fun o => o.ObjectMeta.key) pretzelAI.ObjectMeta.key r.deployments = some d ∧
    needsUpdate d.Spec (desiredDeployment pretzelAI (requestedReplicas pretzelAI)).Spec
      = false) ∧
  (∃ s, lookup (fun o => o.ObjectMeta.key) pretzelAI.ObjectMeta.key r.services = some s ∧
    (desiredService pretzelAI).Spec.Ports = s.Spec.Ports)

/-- The object with its finalizer list replaced. -/
def withFinalizers (pretzelAI : PretzelAI) (finalizers : List String) : PretzelAI :=
  { pretzelAI with ObjectMeta := { pretzelAI.ObjectMeta with Finalizers := finalizers } }

/-! ## More sample inputs -/

/-- A freshly created desired-state object: no finalizer, no deletion timestamp. -/
def freshCR : PretzelAI := withFinalizers sampleCR []

/-- A reconciler whose store holds `freshCR` only. -/
def freshR : PretzelAIReconciler := { pretzelais := [freshCR] }

/-- A desired-state object being deleted, the token between two foreign finalizers. -/
def terminatingCR : PretzelAI :=
  { sampleCR with
    ObjectMeta := { sampleCR.ObjectMeta with
      Finalizers := ["keep.first", pretzelAIFinalizer, "keep.last", pretzelAIFinalizer],
      DeletionTimestamp := some { sec := 63900000000 } } }

/-- A reconciler whose store holds `terminatingCR` and owned resources. -/
def terminatingR : PretzelAIReconciler :=
  { pretzelais := [terminatingCR],
    deployments := [ownedDeployment sampleCR 2],
    services := [ownedService sampleCR] }

/-- A desired-state object being deleted whose finalizer list holds a foreign finalizer
only. -/
def releasedCR : PretzelAI :=
  { sampleCR with
    ObjectMeta := { sampleCR.ObjectMeta with
      Finalizers := ["keep.first"],
      DeletionTimestamp := some { sec := 63900000000 } } }

/-- A reconciler whose store holds `releasedCR` and owned resources. -/
def releasedR : PretzelAIReconciler :=
  { pretzelais := [releasedCR],
    deployments := [ownedDeployment sampleCR 2],
    services := [ownedService sampleCR] }

/-- A reconciler whose store is an API server that applies its defaults and holds
`sampleCR` only. -/
def apiServerR : PretzelAIReconciler := { pretzelais := [sampleCR], defaulting := true }

/-- A desired-state object asking for a NodePort exposure. -/
def nodePortCR : PretzelAI :=
  { sampleCR with Spec := { sampleCR.Spec with ServiceType := "NodePort" } }

/-- A reconciler whose store holds `nodePortCR` only. -/
def nodePortR : PretzelAIReconciler := { pretzelais := [nodePortCR] }

/-- A live Workload in its watched fields as `sampleCR` asks, with platform-added
labels, annotations, a resource version, a second container and a status. -/
def liveDeployment : Deployment :=
  { ObjectMeta := { Name := "demo", Namespace := "default", UID := "d1",
                    ResourceVersion := "41",
                    Labels := [("pod-template-hash", "5d8f")],
                    Annotations := [("deployment.kubernetes.io/revision", "3")],
                    OwnerReferences := [controllerRef sampleCR] },
    Spec := { Replicas := some 2,
              Selector := some { MatchLabels := [("app", "demo")] },
              Template := {
                ObjectMeta := { Labels := [("app", "demo")] },
                Spec := { Containers := [
                  { Name := "pretzelai", Image := "pretzelai:local",
                    ImagePullPolicy := "Always",
                    Ports := [{ ContainerPort := 8888, Protocol := "TCP" }] },
                  { Name := "sidecar", Image := "envoy:1" }] } } },
    Status := { Replicas := 2, ReadyReplicas := 2, AvailableReplicas := 2 } }

/-- A live Exposure with the desired port list, a NodePort type and platform-added
labels. -/
def liveService : Service :=
  { ObjectMeta := { Name := "demo", Namespace := "default", UID := "s1",
                    ResourceVersion := "17", Labels := [("added", "by-platform")] },
    Spec := { Ports := [{ Port := 80, TargetPort := FromInt 8888 }],
              Selector := [("app", "demo")], Type_ := "NodePort" } }

/-- A live ConfigBundle with the desired payload and a platform-added annotation. -/
def liveConfigMap : ConfigMap :=
  { ObjectMeta := { Name := "cfg", Namespace := "default", ResourceVersion := "9",
                    Annotations := [("added", "by-platform")] },
    Data := [("config.yaml", "example: value")] }

/-- A reconciler whose store holds `sampleCR` and the three live resources. -/
def liveR : PretzelAIReconciler :=
  { pretzelais := [sampleCR], configMaps := [liveConfigMap],
    deployments := [liveDeployment], services := [liveService] }

/-- The desired-state object whose status already shows the live values of `liveR`. -/
def syncedCR : PretzelAI :=
  { sampleCR with
    Status := { ReadyReplicas := 2, AvailableReplicas := 2, ServiceStatus := "NodePort" } }

/-- The store of `liveR` with `syncedCR` as the desired-state object. -/
def syncedR : PretzelAIReconciler := { liveR with pretzelais := [syncedCR] }

/-- A live Workload drifted to 5 replicas and another image in its first container. -/
def driftedDeployment : Deployment :=
  { liveDeployment with
    Spec := { liveDeployment.Spec with
      Replicas := some 5,
      Template := { liveDeployment.Spec.Template with
        Spec := { Containers := [
          { Name := "pretzelai", Image := "pretzelai:old", ImagePullPolicy := "Always",
            Ports := [{ ContainerPort := 8888, Protocol := "TCP" }] },
          { Name := "sidecar", Image := "envoy:1" }] } } } }

/-- A reconciler whose store holds `sampleCR` and the drifted Workload. -/
def driftedR : PretzelAIReconciler :=
  { pretzelais := [sampleCR], deployments := [driftedDeployment] }

/-- A live Workload with 1 replica and an empty container list. -/
def emptyDeployment : Deployment :=
  { ObjectMeta := { Name := "demo", Namespace := "default" },
    Spec := { Replicas := some 1 } }

/-- A reconciler whose store holds `sampleCR` and the Workload without containers. -/
def emptyR : PretzelAIReconciler :=
  { pretzelais := [sampleCR], deployments := [emptyDeployment] }

/-! # Theorems -/

/-! ## Basic facts on the helpers -/

theorem removeString_loop (slice : List String) (s : String) (acc : List String) :
    slice.foldl (fun result item => if item != s then result ++ [item] else result) acc
      = acc ++ slice.filter (fun item => item != s) := by
  induction slice generalizing acc with
  | nil => simp
  | cons a t ih =>
    rw [List.foldl_cons, ih]
    by_cases h : a = s
    · simp [h]
    · simp [h]

theorem removeString_eq_filter (slice : List String) (s : String) :
    removeString slice s = slice.filter (fun item => item != s) := by
  unfold removeString
  rw [removeString_loop]
  simp

theorem containsString_iff (slice : List String) (s : String) :
    containsString slice s = true ↔ s ∈ slice := by
  induction slice with
  | nil => simp [containsString]
  | cons a t ih =>
    by_cases h : a = s
    · simp [containsString, h]
    · have h2 : ¬ s = a := fun e => h e.symm
      simp [containsString, h, h2, ih]

theorem lookup_key {α : Type} (key : α → NamespacedName) (k : NamespacedName)
    (l : List α) (x : α) (h : lookup key k l = some x) : key x = k := by
  have := List.find?_some h
  simpa using this

theorem lookup_store {α : Type} (key : α → NamespacedName) (v : α) (l : List α) (x : α)
    (h : lookup key (key v) l = some x) : lookup key (key v) (store key v l) = some v := by
  induction l with
  | nil => simp [lookup] at h
  | cons a t ih =>
    by_cases ha : key a = key v
    · simp [lookup, store, ha]
    · have h2 : lookup key (key v) t = some x := by
        simpa [lookup, List.find?_cons, ha] using h
      have := ih h2
      simpa [lookup, store, List.find?_cons, ha] using this

theorem lookup_append {α : Type} (key : α → NamespacedName) (v : α) (l : List α)
    (h : lookup key (key v) l = none) : lookup key (key v) (l ++ [v]) = some v := by
  induction l with
  | nil => simp [lookup]
  | cons a t ih =>
    by_cases ha : key a = key v
    · simp [lookup, List.find?_cons, ha] at h
    · have h2 : lookup key (key v) t = none := by
        simpa [lookup, List.find?_cons, ha] using h
      have := ih h2
      simpa [lookup, List.find?_cons, ha] using this

theorem lookup_store_key {α : Type} (key : α → NamespacedName) (v : α) (l : List α) (x : α)
    (k : NamespacedName) (hk : key v = k) (h : lookup key k l = some x) :
    lookup key k (store key v l) = some v := by
  subst hk
  exact lookup_store key v l x h

theorem lookup_append_key {α : Type} (key : α → NamespacedName) (v : α) (l : List α)
    (k : NamespacedName) (hk : key v = k) (h : lookup key k l = none) :
    lookup key k (l ++ [v]) = some v := by
  subst hk
  exact lookup_append key v l h

theorem SetControllerReference_ok (owner : PretzelAI) (object : ObjectMeta)
    (h : object.Namespace = owner.ObjectMeta.Namespace) :
    SetControllerReference owner object true = .ok { object with
      OwnerReferences := object.OwnerReferences ++
        [{ APIVersion := "pretzelai.pretzelai.local/v1alpha1", Kind := "PretzelAI",
           Name := owner.ObjectMeta.Name, UID := owner.ObjectMeta.UID,
           Controller := some true, BlockOwnerDeletion := some true }] } := by
  unfold SetControllerReference
  by_cases h0 : owner.ObjectMeta.Namespace = ""
  · simp [h, h0]
  · simp [h, h0]

/-! ## Frame facts on the clock and the log -/

namespace PretzelAIReconciler

@[simp] theorem advance_Scheme (r : PretzelAIReconciler) : r.advance.Scheme = r.Scheme := rfl

@[simp] theorem advance_pretzelais (r : PretzelAIReconciler) :
    r.advance.pretzelais = r.pretzelais := rfl

@[simp] theorem advance_configMaps (r : PretzelAIReconciler) :
    r.advance.configMaps = r.configMaps := rfl

@[simp] theorem advance_deployments (r : PretzelAIReconciler) :
    r.advance.deployments = r.deployments := rfl

@[simp] theorem advance_services (r : PretzelAIReconciler) :
    r.advance.services = r.services := rfl

@[simp] theorem advance_faults (r : PretzelAIReconciler) : r.advance.faults = r.faults := rfl

@[simp] theorem advance_writes (r : PretzelAIReconciler) : r.advance.writes = r.writes := rfl

@[simp] theorem advance_tick (r : PretzelAIReconciler) : r.advance.tick = r.tick + 1 := rfl

@[simp] theorem advance_defaulting (r : PretzelAIReconciler) :
    r.advance.defaulting = r.defaulting := rfl

@[simp] theorem record_defaulting (r : PretzelAIReconciler) (c : Write) :
    (r.record c).defaulting = r.defaulting := rfl

@[simp] theorem advance_served (r : PretzelAIReconciler) (o : Service) :
    r.advance.served o = r.served o := rfl

@[simp] theorem served_ObjectMeta (r : PretzelAIReconciler) (o : Service) :
    (r.served o).ObjectMeta = o.ObjectMeta := by
  unfold served
  split <;> rfl

@[simp] theorem served_Type (r : PretzelAIReconciler) (o : Service) :
    (r.served o).Spec.Type_ = o.Spec.Type_ := by
  unfold served
  split <;> rfl

theorem served_of_faithful (r : PretzelAIReconciler) (o : Service)
    (h : r.defaulting = false) : r.served o = o := by
  simp [served, h]

@[simp] theorem record_Scheme (r : PretzelAIReconciler) (c : Write) :
    (r.record c).Scheme = r.Scheme := rfl

@[simp] theorem record_pretzelais (r : PretzelAIReconciler) (c : Write) :
    (r.record c).pretzelais = r.pretzelais := rfl

@[simp] theorem record_configMaps (r : PretzelAIReconciler) (c : Write) :
    (r.record c).configMaps = r.configMaps := rfl

@[simp] theorem record_deployments (r : PretzelAIReconciler) (c : Write) :
    (r.record c).deployments = r.deployments := rfl

@[simp] theorem record_services (r : PretzelAIReconciler) (c : Write) :
    (r.record c).services = r.services := rfl

@[simp] theorem record_faults (r : PretzelAIReconciler) (c : Write) :
    (r.record c).faults = r.faults := rfl

@[simp] theorem record_writes (r : PretzelAIReconciler) (c : Write) :
    (r.record c).writes = r.writes ++ [c] := rfl

@[simp] theorem record_tick (r : PretzelAIReconciler) (c : Write) :
    (r.record c).tick = r.tick + 1 := rfl

end PretzelAIReconciler

/-! ## The convergers, case by case -/

@[simp] theorem desiredDeployment_Namespace (pretzelAI : PretzelAI) (replicas : Int) :
    (desiredDeployment pretzelAI replicas).ObjectMeta.Namespace
      = pretzelAI.ObjectMeta.Namespace := rfl

@[simp] theorem desiredDeployment_Name (pretzelAI : PretzelAI) (replicas : Int) :
    (desiredDeployment pretzelAI replicas).ObjectMeta.Name = pretzelAI.ObjectMeta.Name := rfl

@[simp] theorem desiredDeployment_Replicas (pretzelAI : PretzelAI) (replicas : Int) :
    (desiredDeployment pretzelAI replicas).Spec.Replicas = some replicas := rfl

@[simp] theorem desiredDeployment_firstImage (pretzelAI : PretzelAI) (replicas : Int) :
    firstImage (desiredDeployment pretzelAI replicas).Spec = some "pretzelai:local" := rfl

@[simp] theorem desiredDeployment_OwnerReferences (pretzelAI : PretzelAI) (replicas : Int) :
    (desiredDeployment pretzelAI replicas).ObjectMeta.OwnerReferences = [] := rfl

/-- The method `ensureDeployment` as one case table. -/
theorem ensureDeployment_eq (r : PretzelAIReconciler) (pretzelAI : PretzelAI)
    (replicas : Int) :
    ensureDeployment r pretzelAI replicas =
      if r.Scheme = false then (.err .noKind, r)
      else if r.faulty = true then (.err .transient, r.advance)
      else
        match lookup (fun o => o.ObjectMeta.key) pretzelAI.ObjectMeta.key r.deployments with
        | none =>
          if r.advance.faulty = true then
            (.err .transient,
              r.advance.record (.createDeployment (ownedDeployment pretzelAI replicas)))
          else
            (.ok (ownedDeployment pretzelAI replicas),
              { r.advance.record (.createDeployment (ownedDeployment pretzelAI replicas)) with
                deployments := r.deployments ++ [ownedDeployment pretzelAI replicas] })
        | some existing =>
          if needsUpdate existing.Spec (desiredDeployment pretzelAI replicas).Spec = true then
            match existing.Spec.Template.Spec.Containers with
            | [] => (.panic, r.advance)
            | c :: cs =>
              if r.advance.faulty = true then
                (.err .transient,
                  r.advance.record (.updateDeployment (patchedDeployment existing replicas c cs)))
              else
                (.ok (patchedDeployment existing replicas c cs),
                  { r.advance.record
                      (.updateDeployment (patchedDeployment existing replicas c cs)) with
                    deployments := store (fun o => o.ObjectMeta.key)
                      (patchedDeployment existing replicas c cs) r.deployments })
          else (.ok existing, r.advance) := by
  unfold ensureDeployment
  dsimp only
  by_cases hs : r.Scheme = true
  swap
  · have hs2 : r.Scheme = false := by simpa using hs
    by_cases h0 : pretzelAI.ObjectMeta.Namespace = ""
    · simp [hs2, SetControllerReference, h0]
    · simp [hs2, SetControllerReference, h0]
  rw [hs, SetControllerReference_ok _ _ (by simp)]
  dsimp only
  by_cases hf : r.faulty = true
  · simp [PretzelAIReconciler.GetDeployment, hf, IgnoreNotFound]
  have hf1 : r.faulty = false := by simpa using hf
  cases hl : lookup (fun o => o.ObjectMeta.key) pretzelAI.ObjectMeta.key r.deployments with
  | none =>
    have hget : r.GetDeployment ⟨pretzelAI.ObjectMeta.Namespace, pretzelAI.ObjectMeta.Name⟩
        = (.error .notFound, r.advance) := by
      have : lookup (fun o => o.ObjectMeta.key)
          ⟨pretzelAI.ObjectMeta.Namespace, pretzelAI.ObjectMeta.Name⟩ r.deployments = none := hl
      simp only [PretzelAIReconciler.GetDeployment, hf1, this]
      rfl
    simp only [desiredDeployment_Namespace, desiredDeployment_Name, hget]
    have hlA := hl
    simp only [ObjectMeta.key] at hlA
    by_cases hfa : r.advance.faulty = true
    · simp [PretzelAIReconciler.CreateDeployment, IgnoreNotFound, hfa, hf1, hs, hlA,
        ownedDeployment, controllerRef, ObjectMeta.key]
    · simp [PretzelAIReconciler.CreateDeployment, IgnoreNotFound, hfa, hf1, hs, hlA,
        ownedDeployment, controllerRef, ObjectMeta.key]
  | some existing =>
    have hget : r.GetDeployment ⟨pretzelAI.ObjectMeta.Namespace, pretzelAI.ObjectMeta.Name⟩
        = (.ok existing, r.advance) := by
      have : lookup (fun o => o.ObjectMeta.key)
          ⟨pretzelAI.ObjectMeta.Namespace, pretzelAI.ObjectMeta.Name⟩ r.deployments
            = some existing := hl
      simp only [PretzelAIReconciler.GetDeployment, hf1, this]
      rfl
    simp only [desiredDeployment_Namespace, desiredDeployment_Name, hget]
    have hk := lookup_key _ _ _ _ hl
    have hlU : lookup (fun o => o.ObjectMeta.key)
        ⟨existing.ObjectMeta.Namespace, existing.ObjectMeta.Name⟩ r.deployments
        = some existing := by
      have h2 : (⟨existing.ObjectMeta.Namespace, existing.ObjectMeta.Name⟩ : NamespacedName)
          = pretzelAI.ObjectMeta.key := hk
      rw [h2]; exact hl
    simp only [ObjectMeta.key] at hlU
    by_cases hn : needsUpdate existing.Spec (desiredDeployment pretzelAI replicas).Spec = true
    · cases hc : existing.Spec.Template.Spec.Containers with
      | nil =>
        simp [hn, hs, hf1, hc, setFirstImage]
      | cons c cs =>
        by_cases hfa : r.advance.faulty = true
        · simp [hn, hs, hf1, hc, hfa, setFirstImage,
            PretzelAIReconciler.UpdateDeployment, patchedDeployment, ObjectMeta.key]
        · simp [hn, hs, hf1, hc, hfa, setFirstImage,
            PretzelAIReconciler.UpdateDeployment, patchedDeployment, hlU, ObjectMeta.key]
    · simp [hn, hs, hf1]

@[simp] theorem desiredService_Namespace (pretzelAI : PretzelAI) :
    (desiredService pretzelAI).ObjectMeta.Namespace = pretzelAI.ObjectMeta.Namespace := rfl

@[simp] theorem desiredService_Name (pretzelAI : PretzelAI) :
    (desiredService pretzelAI).ObjectMeta.Name = pretzelAI.ObjectMeta.Name := rfl

@[simp] theorem desiredService_OwnerReferences (pretzelAI : PretzelAI) :
    (desiredService pretzelAI).ObjectMeta.OwnerReferences = [] := rfl

/-- The method `ensureService` as one case table. -/
theorem ensureService_eq (r : PretzelAIReconciler) (pretzelAI : PretzelAI) :
    ensureService r pretzelAI =
      if r.Scheme = false then (.err .noKind, r)
      else if r.faulty = true then (.err .transient, r.advance)
      else
        match lookup (fun o => o.ObjectMeta.key) pretzelAI.ObjectMeta.key r.services with
        | none =>
          if r.advance.faulty = true then
            (.err .transient, r.advance.record (.createService (ownedService pretzelAI)))
          else
            (.ok (r.served (ownedService pretzelAI)),
              { r.advance.record (.createService (ownedService pretzelAI)) with
                services := r.services ++ [r.served (ownedService pretzelAI)] })
        | some existing =>
          if (desiredService pretzelAI).Spec.Ports ≠ existing.Spec.Ports then
            if r.advance.faulty = true then
              (.err .transient,
                r.advance.record (.updateService (patchedService existing pretzelAI)))
            else
              (.ok (r.served (patchedService existing pretzelAI)),
                { r.advance.record (.updateService (patchedService existing pretzelAI)) with
                  services := store (fun o => o.ObjectMeta.key)
                    (r.served (patchedService existing pretzelAI)) r.services })
          else (.ok existing, r.advance) := by
  unfold ensureService
  dsimp only
  by_cases hs : r.Scheme = true
  swap
  · have hs2 : r.Scheme = false := by simpa using hs
    by_cases h0 : pretzelAI.ObjectMeta.Namespace = ""
    · simp [hs2, SetControllerReference, h0]
    · simp [hs2, SetControllerReference, h0]
  rw [hs, SetControllerReference_ok _ _ (by simp)]
  dsimp only
  by_cases hf : r.faulty = true
  · simp [PretzelAIReconciler.GetService, hf, IgnoreNotFound]
  have hf1 : r.faulty = false := by simpa using hf
  cases hl : lookup (fun o => o.ObjectMeta.key) pretzelAI.ObjectMeta.key r.services with
  | none =>
    have hget : r.GetService ⟨pretzelAI.ObjectMeta.Namespace, pretzelAI.ObjectMeta.Name⟩
        = (.error .notFound, r.advance) := by
      have : lookup (fun o => o.ObjectMeta.key)
          ⟨pretzelAI.ObjectMeta.Namespace, pretzelAI.ObjectMeta.Name⟩ r.services = none := hl
      simp only [PretzelAIReconciler.GetService, hf1, this]
      rfl
    simp only [desiredService_Namespace, desiredService_Name, hget]
    have hlA := hl
    simp only [ObjectMeta.key] at hlA
    by_cases hfa : r.advance.faulty = true
    · simp [PretzelAIReconciler.CreateService, IgnoreNotFound, hfa, hf1, hs, hlA,
        ownedService, controllerRef, ObjectMeta.key]
    · simp [PretzelAIReconciler.CreateService, IgnoreNotFound, hfa, hf1, hs, hlA,
        ownedService, controllerRef, ObjectMeta.key]
  | some existing =>
    have hget : r.GetService ⟨pretzelAI.ObjectMeta.Namespace, pretzelAI.ObjectMeta.Name⟩
        = (.ok existing, r.advance) := by
      have : lookup (fun o => o.ObjectMeta.key)
          ⟨pretzelAI.ObjectMeta.Namespace, pretzelAI.ObjectMeta.Name⟩ r.services
            = some existing := hl
      simp only [PretzelAIReconciler.GetService, hf1, this]
      rfl
    simp only [desiredService_Namespace, desiredService_Name, hget]
    have hk := lookup_key _ _ _ _ hl
    have hlU : lookup (fun o => o.ObjectMeta.key)
        ⟨existing.ObjectMeta.Namespace, existing.ObjectMeta.Name⟩ r.services
        = some existing := by
      have h2 : (⟨existing.ObjectMeta.Namespace, existing.ObjectMeta.Name⟩ : NamespacedName)
          = pretzelAI.ObjectMeta.key := hk
      rw [h2]; exact hl
    simp only [ObjectMeta.key] at hlU
    by_cases hn : (desiredService pretzelAI).Spec.Ports = existing.Spec.Ports
    · simp [hn, hs, hf1]
    · by_cases hfa : r.advance.faulty = true
      · simp [hn, hs, hf1, hfa, PretzelAIReconciler.UpdateService, patchedService,
          ObjectMeta.key]
      · simp [hn, hs, hf1, hfa, PretzelAIReconciler.UpdateService, patchedService, hlU,
          ObjectMeta.key]

@[simp] theorem desiredConfigMap_Namespace (pretzelAI : PretzelAI) (req : NamespacedName) :
    (desiredConfigMap pretzelAI req).ObjectMeta.Namespace = req.Namespace := rfl

@[simp] theorem desiredConfigMap_Name (pretzelAI : PretzelAI) (req : NamespacedName) :
    (desiredConfigMap pretzelAI req).ObjectMeta.Name = pretzelAI.Spec.ConfigMapName := rfl

@[simp] theorem desiredConfigMap_OwnerReferences (pretzelAI : PretzelAI)
    (req : NamespacedName) :
    (desiredConfigMap pretzelAI req).ObjectMeta.OwnerReferences = [] := rfl

@[simp] theorem desiredConfigMap_Data (pretzelAI : PretzelAI) (req : NamespacedName) :
    (desiredConfigMap pretzelAI req).Data = desiredData := rfl

/-- Step 3 of `Reconcile` as one case table, for a request in the namespace of the
object. -/
theorem reconcileConfigMap_eq (r : PretzelAIReconciler) (pretzelAI : PretzelAI)
    (req : NamespacedName) (hns : req.Namespace = pretzelAI.ObjectMeta.Namespace) :
    reconcileConfigMap r pretzelAI req =
      if pretzelAI.Spec.ConfigMapName = "" then (none, r)
      else if r.Scheme = false then (some .noKind, r)
      else if r.faulty = true then (some .transient, r.advance)
      else
        match lookup (fun o => o.ObjectMeta.key)
            ⟨req.Namespace, pretzelAI.Spec.ConfigMapName⟩ r.configMaps with
        | none =>
          if r.advance.faulty = true then
            (some .transient,
              r.advance.record (.createConfigMap (ownedConfigMap pretzelAI req)))
          else
            (none,
              { r.advance.record (.createConfigMap (ownedConfigMap pretzelAI req)) with
                configMaps := r.configMaps ++ [ownedConfigMap pretzelAI req] })
        | some existing =>
          if desiredData ≠ existing.Data then
            if r.advance.faulty = true then
              (some .transient,
                r.advance.record (.updateConfigMap { existing with Data := desiredData }))
            else
              (none,
                { r.advance.record (.updateConfigMap { existing with Data := desiredData }) with
                  configMaps := store (fun o => o.ObjectMeta.key)
                    { existing with Data := desiredData } r.configMaps })
          else (none, r.advance) := by
  unfold reconcileConfigMap
  by_cases hname : pretzelAI.Spec.ConfigMapName = ""
  · simp [hname]
  dsimp only
  by_cases hs : r.Scheme = true
  swap
  · have hs2 : r.Scheme = false := by simpa using hs
    by_cases h0 : pretzelAI.ObjectMeta.Namespace = ""
    · simp [hs2, SetControllerReference, h0, hname]
    · simp [hs2, SetControllerReference, h0, hname, hns]
  rw [hs, SetControllerReference_ok _ _ (by simp [hns])]
  dsimp only
  by_cases hf : r.faulty = true
  · simp [PretzelAIReconciler.GetConfigMap, hf, IgnoreNotFound, hname]
  have hf1 : r.faulty = false := by simpa using hf
  cases hl : lookup (fun o => o.ObjectMeta.key)
      ⟨req.Namespace, pretzelAI.Spec.ConfigMapName⟩ r.configMaps with
  | none =>
    have hget : r.GetConfigMap ⟨req.Namespace, pretzelAI.Spec.ConfigMapName⟩
        = (.error .notFound, r.advance) := by
      simp only [PretzelAIReconciler.GetConfigMap, hf1, hl]
      rfl
    simp only [desiredConfigMap_Namespace, desiredConfigMap_Name, hget]
    have hlA := hl
    simp only [ObjectMeta.key] at hlA
    by_cases hfa : r.advance.faulty = true
    · simp [PretzelAIReconciler.CreateConfigMap, IgnoreNotFound, hfa, hf1, hs, hlA,
        ownedConfigMap, controllerRef, ObjectMeta.key, hname]
    · simp [PretzelAIReconciler.CreateConfigMap, IgnoreNotFound, hfa, hf1, hs, hlA,
        ownedConfigMap, controllerRef, ObjectMeta.key, hname]
  | some existing =>
    have hget : r.GetConfigMap ⟨req.Namespace, pretzelAI.Spec.ConfigMapName⟩
        = (.ok existing, r.advance) := by
      simp only [PretzelAIReconciler.GetConfigMap, hf1, hl]
      rfl
    simp only [desiredConfigMap_Namespace, desiredConfigMap_Name, hget]
    have hk := lookup_key _ _ _ _ hl
    have hlU : lookup (fun o => o.ObjectMeta.key)
        ⟨existing.ObjectMeta.Namespace, existing.ObjectMeta.Name⟩ r.configMaps
        = some existing := by
      have h2 : (⟨existing.ObjectMeta.Namespace, existing.ObjectMeta.Name⟩ : NamespacedName)
          = ⟨req.Namespace, pretzelAI.Spec.ConfigMapName⟩ := hk
      rw [h2]; exact hl
    simp only [ObjectMeta.key] at hlU
    by_cases hn : desiredData = existing.Data
    · simp [hn, hs, hf1, hname]
    · by_cases hfa : r.advance.faulty = true
      · simp [hn, hs, hf1, hfa, PretzelAIReconciler.UpdateConfigMap, ObjectMeta.key, hname]
      · simp [hn, hs, hf1, hfa, PretzelAIReconciler.UpdateConfigMap, hlU, ObjectMeta.key,
          hname]

/-! ## What each step leaves untouched -/

theorem ensureDeployment_frame (r : PretzelAIReconciler) (pretzelAI : PretzelAI)
    (replicas : Int) :
    (ensureDeployment r pretzelAI replicas).2.Scheme = r.Scheme ∧
    (ensureDeployment r pretzelAI replicas).2.faults = r.faults ∧
    (ensureDeployment r pretzelAI replicas).2.pretzelais = r.pretzelais ∧
    (ensureDeployment r pretzelAI replicas).2.configMaps = r.configMaps ∧
    (ensureDeployment r pretzelAI replicas).2.services = r.services := by
  rw [ensureDeployment_eq]
  repeat' split
  all_goals simp

theorem ensureService_frame (r : PretzelAIReconciler) (pretzelAI : PretzelAI) :
    (ensureService r pretzelAI).2.Scheme = r.Scheme ∧
    (ensureService r pretzelAI).2.faults = r.faults ∧
    (ensureService r pretzelAI).2.pretzelais = r.pretzelais ∧
    (ensureService r pretzelAI).2.configMaps = r.configMaps ∧
    (ensureService r pretzelAI).2.deployments = r.deployments := by
  rw [ensureService_eq]
  repeat' split
  all_goals simp

theorem reconcileConfigMap_frame (r : PretzelAIReconciler) (pretzelAI : PretzelAI)
    (req : NamespacedName) (hns : req.Namespace = pretzelAI.ObjectMeta.Namespace) :
    (reconcileConfigMap r pretzelAI req).2.Scheme = r.Scheme ∧
    (reconcileConfigMap r pretzelAI req).2.faults = r.faults ∧
    (reconcileConfigMap r pretzelAI req).2.pretzelais = r.pretzelais ∧
    (reconcileConfigMap r pretzelAI req).2.deployments = r.deployments ∧
    (reconcileConfigMap r pretzelAI req).2.services = r.services := by
  rw [reconcileConfigMap_eq _ _ _ hns]
  repeat' split
  all_goals simp

theorem ensureDeployment_defaulting (r : PretzelAIReconciler) (pretzelAI : PretzelAI)
    (replicas : Int) :
    (ensureDeployment r pretzelAI replicas).2.defaulting = r.defaulting := by
  rw [ensureDeployment_eq]
  repeat' split
  all_goals simp

theorem reconcileConfigMap_defaulting (r : PretzelAIReconciler) (pretzelAI : PretzelAI)
    (req : NamespacedName) (hns : req.Namespace = pretzelAI.ObjectMeta.Namespace) :
    (reconcileConfigMap r pretzelAI req).2.defaulting = r.defaulting := by
  rw [reconcileConfigMap_eq _ _ _ hns]
  repeat' split
  all_goals simp

/-! ## What a successful step establishes, and what a converged store costs -/

theorem ensureDeployment_converged (r : PretzelAIReconciler) (pretzelAI : PretzelAI)
    (replicas : Int) (d : Deployment)
    (hl : lookup (fun o => o.ObjectMeta.key) pretzelAI.ObjectMeta.key r.deployments = some d)
    (hn : needsUpdate d.Spec (desiredDeployment pretzelAI replicas).Spec = false) :
    ensureDeployment r pretzelAI replicas =
      if r.Scheme = false then (.err .noKind, r)
      else if r.faulty = true then (.err .transient, r.advance)
      else (.ok d, r.advance) := by
  rw [ensureDeployment_eq, hl]
  simp [hn]

theorem ensureService_converged (r : PretzelAIReconciler) (pretzelAI : PretzelAI)
    (s : Service)
    (hl : lookup (fun o => o.ObjectMeta.key) pretzelAI.ObjectMeta.key r.services = some s)
    (hn : (desiredService pretzelAI).Spec.Ports = s.Spec.Ports) :
    ensureService r pretzelAI =
      if r.Scheme = false then (.err .noKind, r)
      else if r.faulty = true then (.err .transient, r.advance)
      else (.ok s, r.advance) := by
  rw [ensureService_eq, hl]
  simp [hn]

theorem reconcileConfigMap_converged (r : PretzelAIReconciler) (pretzelAI : PretzelAI)
    (req : NamespacedName) (hns : req.Namespace = pretzelAI.ObjectMeta.Namespace)
    (c : ConfigMap)
    (hl : lookup (fun o => o.ObjectMeta.key)
      ⟨req.Namespace, pretzelAI.Spec.ConfigMapName⟩ r.configMaps = some c)
    (hn : desiredData = c.Data) :
    reconcileConfigMap r pretzelAI req =
      if pretzelAI.Spec.ConfigMapName = "" then (none, r)
      else if r.Scheme = false then (some .noKind, r)
      else if r.faulty = true then (some .transient, r.advance)
      else (none, r.advance) := by
  rw [reconcileConfigMap_eq _ _ _ hns, hl]
  simp [hn]

theorem needsUpdate_self (s : DeploymentSpec) (n : Int) (h : s.Replicas = some n) :
    needsUpdate s s = false := by
  simp [needsUpdate, h]

theorem ensureDeployment_ok (r : PretzelAIReconciler) (pretzelAI : PretzelAI)
    (replicas : Int) (d : Deployment) (r2 : PretzelAIReconciler)
    (h : ensureDeployment r pretzelAI replicas = (.ok d, r2)) :
    lookup (fun o => o.ObjectMeta.key) pretzelAI.ObjectMeta.key r2.deployments = some d ∧
    needsUpdate d.Spec (desiredDeployment pretzelAI replicas).Spec = false := by
  rw [ensureDeployment_eq] at h
  by_cases hs : r.Scheme = false
  · simp [hs] at h
  by_cases hf : r.faulty = true
  · simp [hs, hf] at h
  simp only [hs, hf, if_false] at h
  cases hl : lookup (fun o => o.ObjectMeta.key) pretzelAI.ObjectMeta.key r.deployments with
  | none =>
    rw [hl] at h
    by_cases hfa : r.advance.faulty = true
    · simp [hfa] at h
    · simp only [hfa, if_false, Prod.mk.injEq, Outcome.ok.injEq] at h
      obtain ⟨rfl, rfl⟩ := h
      constructor
      · exact lookup_append (fun o => o.ObjectMeta.key) (ownedDeployment pretzelAI replicas)
          r.deployments hl
      · exact needsUpdate_self _ replicas rfl
  | some existing =>
    rw [hl] at h
    have hk := lookup_key _ _ _ _ hl
    by_cases hn : needsUpdate existing.Spec (desiredDeployment pretzelAI replicas).Spec = true
    · cases hc : existing.Spec.Template.Spec.Containers with
      | nil => simp [hn, hc] at h
      | cons c cs =>
        by_cases hfa : r.advance.faulty = true
        · simp [hn, hc, hfa] at h
        · simp only [hn, hc, hfa, if_true, if_false, Prod.mk.injEq, Outcome.ok.injEq] at h
          obtain ⟨rfl, rfl⟩ := h
          constructor
          · exact lookup_store_key (fun o => o.ObjectMeta.key)
              (patchedDeployment existing replicas c cs) r.deployments existing _ hk hl
          · simp [needsUpdate, patchedDeployment, firstImage, desiredDeployment]
    · have hn2 : needsUpdate existing.Spec (desiredDeployment pretzelAI replicas).Spec
          = false := by simpa using hn
      simp only [hn2, Bool.false_eq_true, if_false, Prod.mk.injEq, Outcome.ok.injEq] at h
      obtain ⟨rfl, rfl⟩ := h
      exact ⟨hl, hn2⟩

theorem ensureService_ok (r : PretzelAIReconciler) (pretzelAI : PretzelAI)
    (s : Service) (r2 : PretzelAIReconciler)
    (h : ensureService r pretzelAI = (.ok s, r2)) :
    lookup (fun o => o.ObjectMeta.key) pretzelAI.ObjectMeta.key r2.services = some s ∧
    (r.defaulting = false → (desiredService pretzelAI).Spec.Ports = s.Spec.Ports) := by
  rw [ensureService_eq] at h
  by_cases hs : r.Scheme = false
  · simp [hs] at h
  by_cases hf : r.faulty = true
  · simp [hs, hf] at h
  simp only [hs, hf, if_false] at h
  cases hl : lookup (fun o => o.ObjectMeta.key) pretzelAI.ObjectMeta.key r.services with
  | none =>
    rw [hl] at h
    by_cases hfa : r.advance.faulty = true
    · simp [hfa] at h
    · simp only [hfa, if_false, Prod.mk.injEq, Outcome.ok.injEq] at h
      obtain ⟨rfl, rfl⟩ := h
      constructor
      · exact lookup_append_key (fun o => o.ObjectMeta.key)
          (r.served (ownedService pretzelAI)) r.services _
          (by
            show (r.served (ownedService pretzelAI)).ObjectMeta.key = _
            rw [PretzelAIReconciler.served_ObjectMeta]
            rfl) hl
      · intro hd
        rw [PretzelAIReconciler.served_of_faithful r _ hd]
        rfl
  | some existing =>
    rw [hl] at h
    have hk := lookup_key _ _ _ _ hl
    by_cases hn : (desiredService pretzelAI).Spec.Ports = existing.Spec.Ports
    · simp only [hn, ne_eq, not_true_eq_false, if_false, Prod.mk.injEq,
        Outcome.ok.injEq] at h
      obtain ⟨rfl, rfl⟩ := h
      exact ⟨hl, fun _ => hn⟩
    · by_cases hfa : r.advance.faulty = true
      · simp [hn, hfa] at h
      · simp only [hn, hfa, ne_eq, not_false_eq_true, if_true, if_false, Prod.mk.injEq,
          Outcome.ok.injEq] at h
        obtain ⟨rfl, rfl⟩ := h
        constructor
        · exact lookup_store_key (fun o => o.ObjectMeta.key)
            (r.served (patchedService existing pretzelAI)) r.services existing _
            (by
              show (r.served (patchedService existing pretzelAI)).ObjectMeta.key = _
              rw [PretzelAIReconciler.served_ObjectMeta]
              exact hk) hl
        · intro hd
          rw [PretzelAIReconciler.served_of_faithful r _ hd]
          rfl

theorem reconcileConfigMap_ok (r : PretzelAIReconciler) (pretzelAI : PretzelAI)
    (req : NamespacedName) (hns : req.Namespace = pretzelAI.ObjectMeta.Namespace)
    (r2 : PretzelAIReconciler) (hname : pretzelAI.Spec.ConfigMapName ≠ "")
    (h : reconcileConfigMap r pretzelAI req = (none, r2)) :
    ∃ c, lookup (fun o => o.ObjectMeta.key)
        ⟨req.Namespace, pretzelAI.Spec.ConfigMapName⟩ r2.configMaps = some c ∧
      desiredData = c.Data := by
  rw [reconcileConfigMap_eq _ _ _ hns] at h
  by_cases hs : r.Scheme = false
  · simp [hs, hname] at h
  by_cases hf : r.faulty = true
  · simp [hs, hf, hname] at h
  cases hl : lookup (fun o => o.ObjectMeta.key)
      ⟨req.Namespace, pretzelAI.Spec.ConfigMapName⟩ r.configMaps with
  | none =>
    rw [hl] at h
    by_cases hfa : r.advance.faulty = true
    · simp [hs, hf, hname, hfa] at h
    · simp [hs, hf, hname, hfa] at h
      subst h
      exact ⟨ownedConfigMap pretzelAI req,
        lookup_append_key (fun o => o.ObjectMeta.key) (ownedConfigMap pretzelAI req)
          r.configMaps _ rfl hl, rfl⟩
  | some existing =>
    rw [hl] at h
    have hk := lookup_key _ _ _ _ hl
    by_cases hn : desiredData = existing.Data
    · simp [hs, hf, hname, hn] at h
      subst h
      exact ⟨existing, hl, hn⟩
    · by_cases hfa : r.advance.faulty = true
      · simp [hs, hf, hname, hn, hfa] at h
      · simp [hs, hf, hname, hn, hfa] at h
        subst h
        exact ⟨{ existing with Data := desiredData },
          lookup_store_key (fun o => o.ObjectMeta.key) { existing with Data := desiredData }
            r.configMaps existing _ hk hl, rfl⟩

/-! ## The status write and the update of the desired-state object -/

theorem projectStatus_ObjectMeta (pretzelAI : PretzelAI) (dep : Deployment) (svc : Service) :
    (projectStatus pretzelAI dep svc).ObjectMeta = pretzelAI.ObjectMeta := by
  unfold projectStatus
  dsimp only
  split <;> split <;> rfl

theorem projectStatus_Spec (pretzelAI : PretzelAI) (dep : Deployment) (svc : Service) :
    (projectStatus pretzelAI dep svc).Spec = pretzelAI.Spec := by
  unfold projectStatus
  dsimp only
  split <;> split <;> rfl

theorem projectStatus_Status (pretzelAI : PretzelAI) (dep : Deployment) (svc : Service) :
    (projectStatus pretzelAI dep svc).Status =
      { ReadyReplicas := dep.Status.ReadyReplicas,
        AvailableReplicas := dep.Status.AvailableReplicas,
        ServiceStatus := svc.Spec.Type_,
        ConfigMapStatus := pretzelAI.Status.ConfigMapStatus } := by
  unfold projectStatus
  dsimp only
  split <;> split <;> simp_all

theorem StatusUpdate_writes (r : PretzelAIReconciler) (o : PretzelAI) :
    (r.StatusUpdate o).2.writes = r.writes ++ [.updateStatus o] := by
  unfold PretzelAIReconciler.StatusUpdate
  repeat' split
  all_goals simp

theorem StatusUpdate_frame (r : PretzelAIReconciler) (o : PretzelAI) :
    (r.StatusUpdate o).2.Scheme = r.Scheme ∧
    (r.StatusUpdate o).2.faults = r.faults ∧
    (r.StatusUpdate o).2.configMaps = r.configMaps ∧
    (r.StatusUpdate o).2.deployments = r.deployments ∧
    (r.StatusUpdate o).2.services = r.services := by
  unfold PretzelAIReconciler.StatusUpdate
  repeat' split
  all_goals simp

theorem StatusUpdate_ok (r : PretzelAIReconciler) (o : PretzelAI) (r2 : PretzelAIReconciler)
    (h : r.StatusUpdate o = (none, r2)) :
    ∃ old, lookup (fun o => o.ObjectMeta.key) o.ObjectMeta.key r.pretzelais = some old ∧
      r2.pretzelais = store (fun o => o.ObjectMeta.key) { old with Status := o.Status }
        r.pretzelais := by
  unfold PretzelAIReconciler.StatusUpdate at h
  by_cases hf : r.faulty = true
  · simp [hf] at h
  cases hl : lookup (fun o => o.ObjectMeta.key) o.ObjectMeta.key r.pretzelais with
  | none => simp [hf, hl] at h
  | some old =>
    simp [hf, hl] at h
    subst h
    exact ⟨old, rfl, rfl⟩

theorem UpdatePretzelAI_eq (r : PretzelAIReconciler) (o old : PretzelAI)
    (hl : lookup (fun o => o.ObjectMeta.key) o.ObjectMeta.key r.pretzelais = some old) :
    r.UpdatePretzelAI o =
      if r.faulty = true then (some .transient, r.record (.updatePretzelAI o))
      else (none, { r.record (.updatePretzelAI o) with
        pretzelais := store (fun o => o.ObjectMeta.key) { o with Status := old.Status }
          r.pretzelais }) := by
  unfold PretzelAIReconciler.UpdatePretzelAI
  rw [hl]

theorem UpdatePretzelAI_writes (r : PretzelAIReconciler) (o : PretzelAI) :
    (r.UpdatePretzelAI o).2.writes = r.writes ++ [.updatePretzelAI o] := by
  unfold PretzelAIReconciler.UpdatePretzelAI
  repeat' split
  all_goals simp

theorem UpdatePretzelAI_frame (r : PretzelAIReconciler) (o : PretzelAI) :
    (r.UpdatePretzelAI o).2.Scheme = r.Scheme ∧
    (r.UpdatePretzelAI o).2.faults = r.faults ∧
    (r.UpdatePretzelAI o).2.configMaps = r.configMaps ∧
    (r.UpdatePretzelAI o).2.deployments = r.deployments ∧
    (r.UpdatePretzelAI o).2.services = r.services := by
  unfold PretzelAIReconciler.UpdatePretzelAI
  repeat' split
  all_goals simp

/-! ## The writes of each step -/

theorem ensureDeployment_writes (r : PretzelAIReconciler) (pretzelAI : PretzelAI)
    (replicas : Int) :
    ∃ pre, (ensureDeployment r pretzelAI replicas).2.writes = r.writes ++ pre ∧
      ∀ c ∈ pre, c.isStatus = false := by
  rw [ensureDeployment_eq]
  repeat' split
  all_goals first
    | exact ⟨[], (List.append_nil _).symm, fun c hc => absurd hc (List.not_mem_nil c)⟩
    | exact ⟨[_], rfl, by simp [Write.isStatus]⟩

theorem ensureService_writes (r : PretzelAIReconciler) (pretzelAI : PretzelAI) :
    ∃ pre, (ensureService r pretzelAI).2.writes = r.writes ++ pre ∧
      ∀ c ∈ pre, c.isStatus = false := by
  rw [ensureService_eq]
  repeat' split
  all_goals first
    | exact ⟨[], (List.append_nil _).symm, fun c hc => absurd hc (List.not_mem_nil c)⟩
    | exact ⟨[_], rfl, by simp [Write.isStatus]⟩

theorem reconcileConfigMap_writes (r : PretzelAIReconciler) (pretzelAI : PretzelAI)
    (req : NamespacedName) (hns : req.Namespace = pretzelAI.ObjectMeta.Namespace) :
    ∃ pre, (reconcileConfigMap r pretzelAI req).2.writes = r.writes ++ pre ∧
      ∀ c ∈ pre, c.isStatus = false := by
  rw [reconcileConfigMap_eq _ _ _ hns]
  repeat' split
  all_goals first
    | exact ⟨[], (List.append_nil _).symm, fun c hc => absurd hc (List.not_mem_nil c)⟩
    | exact ⟨[_], rfl, by simp [Write.isStatus]⟩

/-! ## A pass over a converged store -/

@[simp] theorem later_Scheme (r : PretzelAIReconciler) (k : Nat) :
    (r.later k).Scheme = r.Scheme := rfl

@[simp] theorem later_pretzelais (r : PretzelAIReconciler) (k : Nat) :
    (r.later k).pretzelais = r.pretzelais := rfl

@[simp] theorem later_configMaps (r : PretzelAIReconciler) (k : Nat) :
    (r.later k).configMaps = r.configMaps := rfl

@[simp] theorem later_deployments (r : PretzelAIReconciler) (k : Nat) :
    (r.later k).deployments = r.deployments := rfl

@[simp] theorem later_services (r : PretzelAIReconciler) (k : Nat) :
    (r.later k).services = r.services := rfl

@[simp] theorem later_faults (r : PretzelAIReconciler) (k : Nat) :
    (r.later k).faults = r.faults := rfl

@[simp] theorem later_writes (r : PretzelAIReconciler) (k : Nat) :
    (r.later k).writes = r.writes := rfl

@[simp] theorem later_defaulting (r : PretzelAIReconciler) (k : Nat) :
    (r.later k).defaulting = r.defaulting := rfl

theorem ensureDeployment_noop (r : PretzelAIReconciler) (pretzelAI : PretzelAI)
    (replicas : Int) (d : Deployment)
    (hl : lookup (fun o => o.ObjectMeta.key) pretzelAI.ObjectMeta.key r.deployments = some d)
    (hn : needsUpdate d.Spec (desiredDeployment pretzelAI replicas).Spec = false) :
    ∃ k, (ensureDeployment r pretzelAI replicas).2 = r.later k ∧
      ((ensureDeployment r pretzelAI replicas).1 = .ok d ∨
        ∃ e, (ensureDeployment r pretzelAI replicas).1 = .err e) := by
  rw [ensureDeployment_converged r pretzelAI replicas d hl hn]
  split
  · exact ⟨0, rfl, Or.inr ⟨_, rfl⟩⟩
  · split
    · exact ⟨1, rfl, Or.inr ⟨_, rfl⟩⟩
    · exact ⟨1, rfl, Or.inl rfl⟩

theorem ensureService_noop (r : PretzelAIReconciler) (pretzelAI : PretzelAI) (s : Service)
    (hl : lookup (fun o => o.ObjectMeta.key) pretzelAI.ObjectMeta.key r.services = some s)
    (hn : (desiredService pretzelAI).Spec.Ports = s.Spec.Ports) :
    ∃ k, (ensureService r pretzelAI).2 = r.later k ∧
      ((ensureService r pretzelAI).1 = .ok s ∨
        ∃ e, (ensureService r pretzelAI).1 = .err e) := by
  rw [ensureService_converged r pretzelAI s hl hn]
  split
  · exact ⟨0, rfl, Or.inr ⟨_, rfl⟩⟩
  · split
    · exact ⟨1, rfl, Or.inr ⟨_, rfl⟩⟩
    · exact ⟨1, rfl, Or.inl rfl⟩

theorem reconcileConfigMap_noop (r : PretzelAIReconciler) (pretzelAI : PretzelAI)
    (req : NamespacedName) (hns : req.Namespace = pretzelAI.ObjectMeta.Namespace)
    (h : pretzelAI.Spec.ConfigMapName ≠ "" →
      ∃ c, lookup (fun o => o.ObjectMeta.key)
        ⟨req.Namespace, pretzelAI.Spec.ConfigMapName⟩ r.configMaps = some c ∧
        desiredData = c.Data) :
    ∃ k, (reconcileConfigMap r pretzelAI req).2 = r.later k := by
  by_cases hname : pretzelAI.Spec.ConfigMapName = ""
  · rw [reconcileConfigMap_eq _ _ _ hns]
    simp only [hname, if_true]
    exact ⟨0, rfl⟩
  · obtain ⟨c, hl, hn⟩ := h hname
    rw [reconcileConfigMap_converged r pretzelAI req hns c hl hn]
    simp only [hname, if_false]
    split
    · exact ⟨0, rfl⟩
    · split
      · exact ⟨1, rfl⟩
      · exact ⟨1, rfl⟩

theorem reconcileOwned_converged (r : PretzelAIReconciler) (pretzelAI : PretzelAI)
    (req : NamespacedName) (hns : req.Namespace = pretzelAI.ObjectMeta.Namespace)
    (hC : Converged r pretzelAI req) :
    (reconcileOwned r pretzelAI req).2.writes = r.writes ∨
    ∃ o, (reconcileOwned r pretzelAI req).2.writes = r.writes ++ [.updateStatus o] := by
  obtain ⟨hcm, ⟨d, hld, hnd⟩, ⟨sv, hls, hns2⟩⟩ := hC
  unfold reconcileOwned
  obtain ⟨k1, h1⟩ := reconcileConfigMap_noop r pretzelAI req hns hcm
  rcases hCM : reconcileConfigMap r pretzelAI req with ⟨e, r1⟩
  rw [hCM] at h1
  simp only at h1
  subst h1
  cases e with
  | some e => left; rfl
  | none =>
    dsimp only
    obtain ⟨k2, h2, h2o⟩ := ensureDeployment_noop (r.later k1) pretzelAI
      (requestedReplicas pretzelAI) d hld hnd
    rcases hD : ensureDeployment (r.later k1) pretzelAI (requestedReplicas pretzelAI)
      with ⟨o, r2⟩
    rw [hD] at h2 h2o
    simp only at h2 h2o
    subst h2
    rcases h2o with rfl | ⟨e, rfl⟩
    swap
    · left; rfl
    dsimp only
    obtain ⟨k3, h3, h3o⟩ := ensureService_noop ((r.later k1).later k2) pretzelAI sv hls hns2
    rcases hS : ensureService ((r.later k1).later k2) pretzelAI with ⟨o, r3⟩
    rw [hS] at h3 h3o
    simp only at h3 h3o
    subst h3
    rcases h3o with rfl | ⟨e, rfl⟩
    swap
    · left; rfl
    dsimp only
    right
    refine ⟨projectStatus pretzelAI d sv, ?_⟩
    have hw := StatusUpdate_writes (((r.later k1).later k2).later k3)
      (projectStatus pretzelAI d sv)
    rcases hU : (((r.later k1).later k2).later k3).StatusUpdate (projectStatus pretzelAI d sv)
      with ⟨e, r4⟩
    rw [hU] at hw
    cases e with
    | some e => simpa using hw
    | none => simpa using hw

/-! ## A successful pass -/

theorem reconcileOwned_ok_inv (r : PretzelAIReconciler) (pretzelAI : PretzelAI)
    (req : NamespacedName) (r4 : PretzelAIReconciler)
    (h : reconcileOwned r pretzelAI req = (.ok (), r4)) :
    ∃ r1 r2 r3 dep svc,
      reconcileConfigMap r pretzelAI req = (none, r1) ∧
      ensureDeployment r1 pretzelAI (requestedReplicas pretzelAI) = (.ok dep, r2) ∧
      ensureService r2 pretzelAI = (.ok svc, r3) ∧
      r3.StatusUpdate (projectStatus pretzelAI dep svc) = (none, r4) := by
  unfold reconcileOwned at h
  rcases hC : reconcileConfigMap r pretzelAI req with ⟨e, r1⟩
  rw [hC] at h
  cases e with
  | some e => simp at h
  | none =>
    dsimp only at h
    rcases hD : ensureDeployment r1 pretzelAI (requestedReplicas pretzelAI) with ⟨o, r2⟩
    rw [hD] at h
    cases o with
    | err e => simp at h
    | panic => simp at h
    | ok dep =>
      dsimp only at h
      rcases hS : ensureService r2 pretzelAI with ⟨o, r3⟩
      rw [hS] at h
      cases o with
      | err e => simp at h
      | panic => simp at h
      | ok svc =>
        dsimp only at h
        rcases hU : r3.StatusUpdate (projectStatus pretzelAI dep svc) with ⟨e, r5⟩
        rw [hU] at h
        cases e with
        | some e => simp at h
        | none =>
          simp only [Prod.mk.injEq, true_and] at h
          subst h
          exact ⟨r1, r2, r3, dep, svc, rfl, hD, hS, hU⟩

theorem reconcileOwned_ok (r : PretzelAIReconciler) (pretzelAI old : PretzelAI)
    (req : NamespacedName) (r4 : PretzelAIReconciler)
    (hns : req.Namespace = pretzelAI.ObjectMeta.Namespace)
    (hold : lookup (fun o => o.ObjectMeta.key) pretzelAI.ObjectMeta.key r.pretzelais
      = some old)
    (h : reconcileOwned r pretzelAI req = (.ok (), r4)) :
    (r.defaulting = false → Converged r4 pretzelAI req) ∧
    r4.Scheme = r.Scheme ∧ r4.faults = r.faults ∧
    ∃ dep svc pre,
      lookup (fun o => o.ObjectMeta.key) pretzelAI.ObjectMeta.key r4.deployments = some dep ∧
      lookup (fun o => o.ObjectMeta.key) pretzelAI.ObjectMeta.key r4.services = some svc ∧
      lookup (fun o => o.ObjectMeta.key) pretzelAI.ObjectMeta.key r4.pretzelais
        = some { old with Status := (projectStatus pretzelAI dep svc).Status } ∧
      r4.writes = r.writes ++ pre ++ [.updateStatus (projectStatus pretzelAI dep svc)] ∧
      ∀ c ∈ pre, c.isStatus = false := by
  obtain ⟨r1, r2, r3, dep, svc, hC, hD, hS, hU⟩ := reconcileOwned_ok_inv r pretzelAI req r4 h
  have fC := reconcileConfigMap_frame r pretzelAI req hns
  have fD := ensureDeployment_frame r1 pretzelAI (requestedReplicas pretzelAI)
  have fS := ensureService_frame r2 pretzelAI
  have fU := StatusUpdate_frame r3 (projectStatus pretzelAI dep svc)
  have wC := reconcileConfigMap_writes r pretzelAI req hns
  have wD := ensureDeployment_writes r1 pretzelAI (requestedReplicas pretzelAI)
  have wS := ensureService_writes r2 pretzelAI
  have wU := StatusUpdate_writes r3 (projectStatus pretzelAI dep svc)
  rw [hC] at fC wC
  rw [hD] at fD wD
  rw [hS] at fS wS
  rw [hU] at fU wU
  simp only at fC fD fS fU wC wD wS wU
  obtain ⟨fC1, fC2, fC3, fC4, fC5⟩ := fC
  obtain ⟨fD1, fD2, fD3, fD4, fD5⟩ := fD
  obtain ⟨fS1, fS2, fS3, fS4, fS5⟩ := fS
  obtain ⟨fU1, fU2, fU3, fU4, fU5⟩ := fU
  obtain ⟨pC, wC1, wC2⟩ := wC
  obtain ⟨pD, wD1, wD2⟩ := wD
  obtain ⟨pS, wS1, wS2⟩ := wS
  obtain ⟨hDl, hDn⟩ := ensureDeployment_ok r1 pretzelAI _ dep r2 hD
  obtain ⟨hSl, hSn⟩ := ensureService_ok r2 pretzelAI svc r3 hS
  obtain ⟨old2, hUl, hUp⟩ := StatusUpdate_ok r3 _ r4 hU
  have hdep4 : lookup (fun o => o.ObjectMeta.key) pretzelAI.ObjectMeta.key r4.deployments
      = some dep := by rw [fU4, fS5]; exact hDl
  have hsvc4 : lookup (fun o => o.ObjectMeta.key) pretzelAI.ObjectMeta.key r4.services
      = some svc := by rw [fU5]; exact hSl
  have hp3 : r3.pretzelais = r.pretzelais := by rw [fS3, fD3, fC3]
  rw [projectStatus_ObjectMeta, hp3, hold] at hUl
  have hold2 : old2 = old := (Option.some.inj hUl).symm
  subst hold2
  have hkold := lookup_key _ _ _ _ hold
  have dC := reconcileConfigMap_defaulting r pretzelAI req hns
  have dD := ensureDeployment_defaulting r1 pretzelAI (requestedReplicas pretzelAI)
  rw [hC] at dC
  rw [hD] at dD
  simp only at dC dD
  refine ⟨fun hd => ⟨?_, ⟨dep, hdep4, hDn⟩,
      ⟨svc, hsvc4, hSn (by rw [dD, dC]; exact hd)⟩⟩,
    ?_, ?_, dep, svc, pC ++ pD ++ pS, hdep4, hsvc4, ?_, ?_, ?_⟩
  · intro hname
    obtain ⟨c, hcl, hcd⟩ := reconcileConfigMap_ok r pretzelAI req hns r1 hname hC
    exact ⟨c, by rw [fU3, fS4, fD4]; exact hcl, hcd⟩
  · rw [fU1, fS1, fD1, fC1]
  · rw [fU2, fS2, fD2, fC2]
  · rw [hUp, hp3]
    exact lookup_store_key (fun o => o.ObjectMeta.key)
      { old2 with Status := (projectStatus pretzelAI dep svc).Status } r.pretzelais old2 _
      hkold hold
  · rw [wU, wS1, wD1, wC1]
    simp [List.append_assoc]
  · intro c hc
    simp only [List.mem_append] at hc
    rcases hc with (hc | hc) | hc
    · exact wC2 c hc
    · exact wD2 c hc
    · exact wS2 c hc

theorem reconcileOwned_writes (r : PretzelAIReconciler) (pretzelAI : PretzelAI)
    (req : NamespacedName) (hns : req.Namespace = pretzelAI.ObjectMeta.Namespace) :
    ∃ rest, (reconcileOwned r pretzelAI req).2.writes = r.writes ++ rest := by
  have wC := reconcileConfigMap_writes r pretzelAI req hns
  unfold reconcileOwned
  rcases hC : reconcileConfigMap r pretzelAI req with ⟨e, r1⟩
  rw [hC] at wC
  obtain ⟨pC, wC1, _⟩ := wC
  simp only at wC1
  cases e with
  | some e => exact ⟨pC, wC1⟩
  | none =>
    dsimp only
    have wD := ensureDeployment_writes r1 pretzelAI (requestedReplicas pretzelAI)
    rcases hD : ensureDeployment r1 pretzelAI (requestedReplicas pretzelAI) with ⟨o, r2⟩
    rw [hD] at wD
    obtain ⟨pD, wD1, _⟩ := wD
    simp only at wD1
    cases o with
    | err e => exact ⟨pC ++ pD, by simp [wD1, wC1]⟩
    | panic => exact ⟨pC ++ pD, by simp [wD1, wC1]⟩
    | ok dep =>
      dsimp only
      have wS := ensureService_writes r2 pretzelAI
      rcases hS : ensureService r2 pretzelAI with ⟨o, r3⟩
      rw [hS] at wS
      obtain ⟨pS, wS1, _⟩ := wS
      simp only at wS1
      cases o with
      | err e => exact ⟨pC ++ pD ++ pS, by simp [wS1, wD1, wC1]⟩
      | panic => exact ⟨pC ++ pD ++ pS, by simp [wS1, wD1, wC1]⟩
      | ok svc =>
        dsimp only
        have wU := StatusUpdate_writes r3 (projectStatus pretzelAI dep svc)
        rcases hU : r3.StatusUpdate (projectStatus pretzelAI dep svc) with ⟨e, r4⟩
        rw [hU] at wU
        simp only at wU
        cases e with
        | some e =>
          exact ⟨pC ++ pD ++ pS ++ [.updateStatus (projectStatus pretzelAI dep svc)],
            by simp [wU, wS1, wD1, wC1]⟩
        | none =>
          exact ⟨pC ++ pD ++ pS ++ [.updateStatus (projectStatus pretzelAI dep svc)],
            by simp [wU, wS1, wD1, wC1]⟩

/-! ## The finalizer gate -/

theorem Reconcile_fault (r : PretzelAIReconciler) (req : NamespacedName)
    (hf : r.faulty = true) : Reconcile r req = (.err .transient, r.advance) := by
  simp [Reconcile, PretzelAIReconciler.GetPretzelAI, hf, IgnoreNotFound]

theorem Reconcile_found (r : PretzelAIReconciler) (req : NamespacedName) (pretzelAI : PretzelAI)
    (hf : r.faulty = false)
    (hl : lookup (fun o => o.ObjectMeta.key) req r.pretzelais = some pretzelAI) :
    Reconcile r req =
      if Time.IsZero pretzelAI.ObjectMeta.DeletionTimestamp = false then
        if containsString pretzelAI.ObjectMeta.Finalizers pretzelAIFinalizer = true then
          if r.advance.faulty = true then
            (.err .transient, r.advance.record (.updatePretzelAI (withFinalizers pretzelAI
              (removeString pretzelAI.ObjectMeta.Finalizers pretzelAIFinalizer))))
          else
            (.ok (), { r.advance.record (.updatePretzelAI (withFinalizers pretzelAI
                (removeString pretzelAI.ObjectMeta.Finalizers pretzelAIFinalizer))) with
              pretzelais := store (fun o => o.ObjectMeta.key) (withFinalizers pretzelAI
                (removeString pretzelAI.ObjectMeta.Finalizers pretzelAIFinalizer))
                r.pretzelais })
        else (.ok (), r.advance)
      else if containsString pretzelAI.ObjectMeta.Finalizers pretzelAIFinalizer = false then
        if r.advance.faulty = true then
          (.err .transient, r.advance.record (.updatePretzelAI (withFinalizers pretzelAI
            (pretzelAI.ObjectMeta.Finalizers ++ [pretzelAIFinalizer]))))
        else
          reconcileOwned
            { r.advance.record (.updatePretzelAI (withFinalizers pretzelAI
                (pretzelAI.ObjectMeta.Finalizers ++ [pretzelAIFinalizer]))) with
              pretzelais := store (fun o => o.ObjectMeta.key) (withFinalizers pretzelAI
                (pretzelAI.ObjectMeta.Finalizers ++ [pretzelAIFinalizer])) r.pretzelais }
            (withFinalizers pretzelAI
              (pretzelAI.ObjectMeta.Finalizers ++ [pretzelAIFinalizer])) req
      else reconcileOwned r.advance pretzelAI req := by
  have hget : r.GetPretzelAI req = (.ok pretzelAI, r.advance) := by
    simp only [PretzelAIReconciler.GetPretzelAI, hf, hl]
    rfl
  have hk := lookup_key _ _ _ _ hl
  have hup : ∀ fs, r.advance.UpdatePretzelAI (withFinalizers pretzelAI fs) =
      if r.advance.faulty = true then
        (some .transient, r.advance.record (.updatePretzelAI (withFinalizers pretzelAI fs)))
      else (none, { r.advance.record (.updatePretzelAI (withFinalizers pretzelAI fs)) with
        pretzelais := store (fun o => o.ObjectMeta.key) (withFinalizers pretzelAI fs)
          r.pretzelais }) := by
    intro fs
    have hl2 : lookup (fun o => o.ObjectMeta.key) (withFinalizers pretzelAI fs).ObjectMeta.key
        r.advance.pretzelais = some pretzelAI := by
      have : (withFinalizers pretzelAI fs).ObjectMeta.key = req := hk
      rw [this]; exact hl
    rw [UpdatePretzelAI_eq _ _ _ hl2]
    rfl
  unfold Reconcile
  rw [hget]
  dsimp only
  by_cases hz : Time.IsZero pretzelAI.ObjectMeta.DeletionTimestamp = true
  · by_cases hc : containsString pretzelAI.ObjectMeta.Finalizers pretzelAIFinalizer = true
    · simp [hz, hc]
    · have hu := hup (pretzelAI.ObjectMeta.Finalizers ++ [pretzelAIFinalizer])
      unfold withFinalizers at hu
      by_cases hfa : r.advance.faulty = true
      · simp [hz, hc, hu, hfa, withFinalizers]
      · simp [hz, hc, hu, hfa, withFinalizers]
  · by_cases hc : containsString pretzelAI.ObjectMeta.Finalizers pretzelAIFinalizer = true
    · have hu := hup (removeString pretzelAI.ObjectMeta.Finalizers pretzelAIFinalizer)
      unfold withFinalizers at hu
      by_cases hfa : r.advance.faulty = true
      · simp [hz, hc, hu, hfa, withFinalizers]
      · simp [hz, hc, hu, hfa, withFinalizers]
    · simp [hz, hc]

/-! ## The claims -/

/-- C1, as stated, fails: on the freshly created object `freshCR` (no deletion
timestamp, no finalizer token) one pass of `Reconcile` issues five writes: the update
that adds the token, then the creation of the ConfigBundle, of the Workload and of the
Exposure, then a status write. -/
theorem C1_pass_does_not_end_after_token :
    lookup (fun o => o.ObjectMeta.key) sampleReq freshR.pretzelais = some freshCR ∧
    Time.IsZero freshCR.ObjectMeta.DeletionTimestamp = true ∧
    containsString freshCR.ObjectMeta.Finalizers pretzelAIFinalizer = false ∧
    (Reconcile freshR sampleReq).1 = .ok () ∧
    (Reconcile freshR sampleReq).2.writes =
      [.updatePretzelAI sampleCR,
       .createConfigMap (ownedConfigMap sampleCR sampleReq),
       .createDeployment (ownedDeployment sampleCR 2),
       .createService (ownedService sampleCR),
       .updateStatus { sampleCR with Status := { ServiceStatus := "ClusterIP" } }] := by
  decide

/-- C1, amended: for a desired-state object with no deletion timestamp and without the
finalizer token, one pass of `Reconcile` first issues one update of the object with the
token appended to its finalizer list.  If that update fails the pass ends with the
error and no other write.  If it succeeds the object is stored with the token and the
same pass goes on with steps 3 to 5 (`reconcileOwned`) on the token-carrying object. -/
theorem C1_token_added_then_pass_goes_on (r : PretzelAIReconciler) (req : NamespacedName)
    (pretzelAI : PretzelAI) (hf : r.faulty = false)
    (hl : lookup (fun o => o.ObjectMeta.key) req r.pretzelais = some pretzelAI)
    (hz : Time.IsZero pretzelAI.ObjectMeta.DeletionTimestamp = true)
    (hc : containsString pretzelAI.ObjectMeta.Finalizers pretzelAIFinalizer = false) :
    (∃ rest, (Reconcile r req).2.writes = r.writes ++
      .updatePretzelAI (withFinalizers pretzelAI
        (pretzelAI.ObjectMeta.Finalizers ++ [pretzelAIFinalizer])) :: rest) ∧
    (r.advance.faulty = true →
      Reconcile r req = (.err .transient,
        r.advance.record (.updatePretzelAI (withFinalizers pretzelAI
          (pretzelAI.ObjectMeta.Finalizers ++ [pretzelAIFinalizer]))))) ∧
    (r.advance.faulty = false →
      lookup (fun o => o.ObjectMeta.key) req
        (store (fun o => o.ObjectMeta.key) (withFinalizers pretzelAI
          (pretzelAI.ObjectMeta.Finalizers ++ [pretzelAIFinalizer])) r.pretzelais)
        = some (withFinalizers pretzelAI
            (pretzelAI.ObjectMeta.Finalizers ++ [pretzelAIFinalizer])) ∧
      Reconcile r req = reconcileOwned
        { r.advance.record (.updatePretzelAI (withFinalizers pretzelAI
            (pretzelAI.ObjectMeta.Finalizers ++ [pretzelAIFinalizer]))) with
          pretzelais := store (fun o => o.ObjectMeta.key) (withFinalizers pretzelAI
            (pretzelAI.ObjectMeta.Finalizers ++ [pretzelAIFinalizer])) r.pretzelais }
        (withFinalizers pretzelAI (pretzelAI.ObjectMeta.Finalizers ++ [pretzelAIFinalizer]))
        req) := by
  have hk := lookup_key _ _ _ _ hl
  have hns : req.Namespace = pretzelAI.ObjectMeta.Namespace := by rw [← hk]
  have hR := Reconcile_found r req pretzelAI hf hl
  simp only [hz, hc, Bool.true_eq_false, if_false, if_true] at hR
  refine ⟨?_, ?_, ?_⟩
  · by_cases hfa : r.advance.faulty = true
    · rw [hR, if_pos hfa]
      exact ⟨[], rfl⟩
    · rw [hR, if_neg hfa]
      obtain ⟨rest, hrest⟩ := reconcileOwned_writes
        { r.advance.record (.updatePretzelAI (withFinalizers pretzelAI
            (pretzelAI.ObjectMeta.Finalizers ++ [pretzelAIFinalizer]))) with
          pretzelais := store (fun o => o.ObjectMeta.key) (withFinalizers pretzelAI
            (pretzelAI.ObjectMeta.Finalizers ++ [pretzelAIFinalizer])) r.pretzelais }
        (withFinalizers pretzelAI (pretzelAI.ObjectMeta.Finalizers ++ [pretzelAIFinalizer]))
        req hns
      refine ⟨rest, ?_⟩
      rw [hrest]
      simp
  · intro hfa
    rw [hR, if_pos hfa]
  · intro hfa
    constructor
    · exact lookup_store_key (fun o => o.ObjectMeta.key)
        (withFinalizers pretzelAI (pretzelAI.ObjectMeta.Finalizers ++ [pretzelAIFinalizer]))
        r.pretzelais pretzelAI req hk hl
    · rw [hR]
      simp [hfa]

/-- C1, amended, on the freshly created object `freshCR`. -/
theorem C1_token_added_then_pass_goes_on_witness :
    (∃ rest, (Reconcile freshR sampleReq).2.writes = freshR.writes ++
      .updatePretzelAI (withFinalizers freshCR
        (freshCR.ObjectMeta.Finalizers ++ [pretzelAIFinalizer])) :: rest) ∧
    (freshR.advance.faulty = true →
      Reconcile freshR sampleReq = (.err .transient,
        freshR.advance.record (.updatePretzelAI (withFinalizers freshCR
          (freshCR.ObjectMeta.Finalizers ++ [pretzelAIFinalizer]))))) ∧
    (freshR.advance.faulty = false →
      lookup (fun o => o.ObjectMeta.key) sampleReq
        (store (fun o => o.ObjectMeta.key) (withFinalizers freshCR
          (freshCR.ObjectMeta.Finalizers ++ [pretzelAIFinalizer])) freshR.pretzelais)
        = some (withFinalizers freshCR
            (freshCR.ObjectMeta.Finalizers ++ [pretzelAIFinalizer])) ∧
      Reconcile freshR sampleReq = reconcileOwned
        { freshR.advance.record (.updatePretzelAI (withFinalizers freshCR
            (freshCR.ObjectMeta.Finalizers ++ [pretzelAIFinalizer]))) with
          pretzelais := store (fun o => o.ObjectMeta.key) (withFinalizers freshCR
            (freshCR.ObjectMeta.Finalizers ++ [pretzelAIFinalizer])) freshR.pretzelais }
        (withFinalizers freshCR (freshCR.ObjectMeta.Finalizers ++ [pretzelAIFinalizer]))
        sampleReq) :=
  C1_token_added_then_pass_goes_on freshR sampleReq freshCR (by decide) (by decide)
    (by decide) (by decide)

/-- C2: for a desired-state object with a deletion timestamp set, one pass of
`Reconcile` leaves the ConfigBundle, Workload and Exposure stores as they are.  If the
finalizer token is in the finalizer list, its only write is one update of the object
whose finalizer list is the old list filtered of the token (every occurrence removed,
the other tokens in their order); if the token is not in the list the pass writes
nothing and returns success. -/
theorem C2_terminating_pass (r : PretzelAIReconciler) (req : NamespacedName)
    (pretzelAI : PretzelAI) (hf : r.faulty = false)
    (hl : lookup (fun o => o.ObjectMeta.key) req r.pretzelais = some pretzelAI)
    (hz : Time.IsZero pretzelAI.ObjectMeta.DeletionTimestamp = false) :
    (Reconcile r req).2.configMaps = r.configMaps ∧
    (Reconcile r req).2.deployments = r.deployments ∧
    (Reconcile r req).2.services = r.services ∧
    (pretzelAIFinalizer ∈ pretzelAI.ObjectMeta.Finalizers →
      (Reconcile r req).2.writes = r.writes ++
        [.updatePretzelAI (withFinalizers pretzelAI
          (pretzelAI.ObjectMeta.Finalizers.filter (fun t => t != pretzelAIFinalizer)))]) ∧
    (pretzelAIFinalizer ∉ pretzelAI.ObjectMeta.Finalizers →
      (Reconcile r req).1 = .ok () ∧ (Reconcile r req).2.writes = r.writes) := by
  have hR := Reconcile_found r req pretzelAI hf hl
  simp only [hz, if_true] at hR
  rw [hR, removeString_eq_filter]
  by_cases hc : pretzelAIFinalizer ∈ pretzelAI.ObjectMeta.Finalizers
  · have hc2 := (containsString_iff _ _).2 hc
    by_cases hfa : r.advance.faulty = true
    · simp [hc, hc2, hfa]
    · simp [hc, hc2, hfa]
  · have hc2 : containsString pretzelAI.ObjectMeta.Finalizers pretzelAIFinalizer = false := by
      cases hcs : containsString pretzelAI.ObjectMeta.Finalizers pretzelAIFinalizer with
      | false => rfl
      | true => exact absurd ((containsString_iff _ _).1 hcs) hc
    simp [hc, hc2]

/-- C2 on two objects being deleted.  The finalizer list of `terminatingCR` holds the
token twice among two foreign finalizers: the one write keeps `keep.first` and
`keep.last`, in that order.  The finalizer list of `releasedCR` does not hold the
token: the pass returns success and writes nothing. -/
theorem C2_terminating_pass_witness :
    (Reconcile terminatingR sampleReq).2.configMaps = terminatingR.configMaps ∧
    (Reconcile terminatingR sampleReq).2.deployments = terminatingR.deployments ∧
    (Reconcile terminatingR sampleReq).2.services = terminatingR.services ∧
    pretzelAIFinalizer ∈ terminatingCR.ObjectMeta.Finalizers ∧
    terminatingCR.ObjectMeta.Finalizers.filter (fun t => t != pretzelAIFinalizer)
      = ["keep.first", "keep.last"] ∧
    (Reconcile terminatingR sampleReq).2.writes = terminatingR.writes ++
      [.updatePretzelAI (withFinalizers terminatingCR
        (terminatingCR.ObjectMeta.Finalizers.filter (fun t => t != pretzelAIFinalizer)))] ∧
    pretzelAIFinalizer ∉ releasedCR.ObjectMeta.Finalizers ∧
    (Reconcile releasedR sampleReq).1 = .ok () ∧
    (Reconcile releasedR sampleReq).2.writes = releasedR.writes :=
  ⟨(C2_terminating_pass terminatingR sampleReq terminatingCR (by decide) (by decide)
      (by decide)).1,
   (C2_terminating_pass terminatingR sampleReq terminatingCR (by decide) (by decide)
      (by decide)).2.1,
   (C2_terminating_pass terminatingR sampleReq terminatingCR (by decide) (by decide)
      (by decide)).2.2.1,
   by decide,
   by decide,
   (C2_terminating_pass terminatingR sampleReq terminatingCR (by decide) (by decide)
      (by decide)).2.2.2.1 (by decide),
   by decide,
   (C2_terminating_pass releasedR sampleReq releasedCR (by decide) (by decide)
      (by decide)).2.2.2.2 (by decide)⟩

/-- C3, the failing input: `sampleCR` asks for image `x:latest` and no Workload is
live; `ensureDeployment` creates a Workload with the name, namespace, replica count 2
and container port 8888, but with image `pretzelai:local`: `Spec.Image` is not read. -/
theorem C3_spec_image_not_used :
    sampleCR.Spec.Image = "x:latest" ∧
    lookup (fun o => o.ObjectMeta.key) sampleCR.ObjectMeta.key sampleR.deployments = none ∧
    (ensureDeployment sampleR sampleCR 2).1 = .ok (ownedDeployment sampleCR 2) ∧
    (ensureDeployment sampleR sampleCR 2).2.writes
      = [.createDeployment (ownedDeployment sampleCR 2)] ∧
    (ownedDeployment sampleCR 2).ObjectMeta.Name = sampleCR.ObjectMeta.Name ∧
    (ownedDeployment sampleCR 2).ObjectMeta.Namespace = sampleCR.ObjectMeta.Namespace ∧
    (ownedDeployment sampleCR 2).Spec.Replicas = some 2 ∧
    (ownedDeployment sampleCR 2).Spec.Template.Spec.Containers.map
      (fun c => c.Ports.map (fun p => p.ContainerPort)) = [[8888]] ∧
    firstImage (ownedDeployment sampleCR 2).Spec = some "pretzelai:local" := by
  decide

/-- C4, the failing input: `nodePortCR` declares `serviceType: NodePort` and no
Exposure is live; `ensureService` creates an Exposure with the name, namespace,
selector and port mapping 80 to 8888, but of type `ClusterIP`. -/
theorem C4_spec_serviceType_not_used :
    nodePortCR.Spec.ServiceType = "NodePort" ∧
    lookup (fun o => o.ObjectMeta.key) nodePortCR.ObjectMeta.key nodePortR.services = none ∧
    (ensureService nodePortR nodePortCR).1 = .ok (ownedService nodePortCR) ∧
    (ensureService nodePortR nodePortCR).2.writes
      = [.createService (ownedService nodePortCR)] ∧
    (ownedService nodePortCR).ObjectMeta.Name = nodePortCR.ObjectMeta.Name ∧
    (ownedService nodePortCR).ObjectMeta.Namespace = nodePortCR.ObjectMeta.Namespace ∧
    (ownedService nodePortCR).Spec.Selector = [("app", nodePortCR.ObjectMeta.Name)] ∧
    (ownedService nodePortCR).Spec.Ports = [{ Port := 80, TargetPort := FromInt 8888 }] ∧
    (ownedService nodePortCR).Spec.Type_ = "ClusterIP" := by
  decide

/-- C5, the failing input: `sampleCR` declares `configMapName: cfg`; the pass succeeds,
creates the ConfigBundle and writes the status, and the status it writes and the one
stored afterwards still have an empty `configMapStatus`. -/
theorem C5_configMapStatus_never_set :
    sampleCR.Spec.ConfigMapName = "cfg" ∧
    (Reconcile sampleR sampleReq).1 = .ok () ∧
    (Reconcile sampleR sampleReq).2.writes.getLast?
      = some (.updateStatus { sampleCR with Status := { ServiceStatus := "ClusterIP" } }) ∧
    (lookup (fun o => o.ObjectMeta.key) sampleReq
      (Reconcile sampleR sampleReq).2.pretzelais).map (fun o => o.Status.ConfigMapStatus)
      = some "" := by
  decide

/-- C10, the failing input: the live Workload `emptyDeployment` has no container and
1 replica, 2 are requested; `needsUpdate` is set by the replica test alone and the
update branch indexes the empty container list: the call panics, with no write. -/
theorem C10_empty_container_list_panics :
    lookup (fun o => o.ObjectMeta.key) sampleCR.ObjectMeta.key emptyR.deployments
      = some emptyDeployment ∧
    emptyDeployment.Spec.Template.Spec.Containers = [] ∧
    needsUpdate emptyDeployment.Spec (desiredDeployment sampleCR 2).Spec = true ∧
    (ensureDeployment emptyR sampleCR 2).1 = .panic ∧
    (ensureDeployment emptyR sampleCR 2).2.writes = [] := by
  decide

/-- C6, as stated, fails: in `syncedR` the status of the desired-state object already
shows the 2 ready and 2 available replicas of the live Workload and the type of the
live Exposure, the owned resources need no change, and the pass still issues a status
write, carrying the status that is already stored. -/
theorem C6_status_written_though_equal :
    lookup (fun o => o.ObjectMeta.key) sampleReq syncedR.pretzelais = some syncedCR ∧
    lookup (fun o => o.ObjectMeta.key) sampleReq syncedR.deployments = some liveDeployment ∧
    lookup (fun o => o.ObjectMeta.key) sampleReq syncedR.services = some liveService ∧
    syncedCR.Status.ReadyReplicas = liveDeployment.Status.ReadyReplicas ∧
    syncedCR.Status.AvailableReplicas = liveDeployment.Status.AvailableReplicas ∧
    syncedCR.Status.ServiceStatus = liveService.Spec.Type_ ∧
    (Reconcile syncedR sampleReq).1 = .ok () ∧
    (Reconcile syncedR sampleReq).2.writes = [.updateStatus syncedCR] := by
  decide

/-- C6, amended: every pass of `Reconcile` on a desired-state object without deletion
timestamp that returns success issues exactly one status write, as its last write,
whether or not a status field differs.  The status written has the ready and available
replicas of the live Workload, the type of the live Exposure and the old
`configMapStatus`; when the three projected fields were already equal it is the status
already stored. -/
theorem C6_status_written_on_every_successful_pass (r : PretzelAIReconciler)
    (req : NamespacedName) (pretzelAI : PretzelAI) (r4 : PretzelAIReconciler)
    (hl : lookup (fun o => o.ObjectMeta.key) req r.pretzelais = some pretzelAI)
    (hz : Time.IsZero pretzelAI.ObjectMeta.DeletionTimestamp = true)
    (h : Reconcile r req = (.ok (), r4)) :
    ∃ dep svc pre o,
      lookup (fun o => o.ObjectMeta.key) req r4.deployments = some dep ∧
      lookup (fun o => o.ObjectMeta.key) req r4.services = some svc ∧
      r4.writes = r.writes ++ pre ++ [.updateStatus o] ∧
      (∀ c ∈ pre, c.isStatus = false) ∧
      o.Status = { ReadyReplicas := dep.Status.ReadyReplicas,
                   AvailableReplicas := dep.Status.AvailableReplicas,
                   ServiceStatus := svc.Spec.Type_,
                   ConfigMapStatus := pretzelAI.Status.ConfigMapStatus } ∧
      (pretzelAI.Status.ReadyReplicas = dep.Status.ReadyReplicas →
        pretzelAI.Status.AvailableReplicas = dep.Status.AvailableReplicas →
        pretzelAI.Status.ServiceStatus = svc.Spec.Type_ →
        o.Status = pretzelAI.Status) := by
  have hk := lookup_key _ _ _ _ hl
  have hns : req.Namespace = pretzelAI.ObjectMeta.Namespace := by rw [← hk]
  by_cases hf : r.faulty = true
  · rw [Reconcile_fault r req hf] at h
    simp at h
  have hf1 : r.faulty = false := by simpa using hf
  rw [Reconcile_found r req pretzelAI hf1 hl] at h
  simp only [hz, Bool.true_eq_false, if_false] at h
  by_cases hc : containsString pretzelAI.ObjectMeta.Finalizers pretzelAIFinalizer = true
  · simp only [hc, Bool.true_eq_false, if_false] at h
    obtain ⟨-, -, -, dep, svc, pre, hd, hs, -, hw, hpre⟩ :=
      reconcileOwned_ok r.advance pretzelAI pretzelAI req r4 hns (by rw [hk]; exact hl) h
    rw [hk] at hd hs
    refine ⟨dep, svc, pre, projectStatus pretzelAI dep svc, hd, hs, by simpa using hw, hpre,
      projectStatus_Status pretzelAI dep svc, ?_⟩
    intro h1 h2 h3
    rw [projectStatus_Status, ← h1, ← h2, ← h3]
  · have hc1 : containsString pretzelAI.ObjectMeta.Finalizers pretzelAIFinalizer = false := by
      simpa using hc
    simp only [hc1, if_true] at h
    by_cases hfa : r.advance.faulty = true
    · simp [hfa] at h
    simp only [hfa, if_false] at h
    have hkw : (withFinalizers pretzelAI
        (pretzelAI.ObjectMeta.Finalizers ++ [pretzelAIFinalizer])).ObjectMeta.key = req := hk
    obtain ⟨-, -, -, dep, svc, pre, hd, hs, -, hw, hpre⟩ :=
      reconcileOwned_ok _ (withFinalizers pretzelAI
        (pretzelAI.ObjectMeta.Finalizers ++ [pretzelAIFinalizer]))
        (withFinalizers pretzelAI
          (pretzelAI.ObjectMeta.Finalizers ++ [pretzelAIFinalizer])) req r4 hns
        (by
          rw [hkw]
          exact lookup_store_key (fun o => o.ObjectMeta.key)
            (withFinalizers pretzelAI
              (pretzelAI.ObjectMeta.Finalizers ++ [pretzelAIFinalizer]))
            r.pretzelais pretzelAI req hk hl) h
    rw [hkw] at hd hs
    refine ⟨dep, svc, .updatePretzelAI (withFinalizers pretzelAI
        (pretzelAI.ObjectMeta.Finalizers ++ [pretzelAIFinalizer])) :: pre,
      projectStatus (withFinalizers pretzelAI
        (pretzelAI.ObjectMeta.Finalizers ++ [pretzelAIFinalizer])) dep svc,
      hd, hs, by simpa using hw, ?_, projectStatus_Status _ dep svc, ?_⟩
    · intro c hcm
      rcases List.mem_cons.1 hcm with rfl | hcm
      · rfl
      · exact hpre c hcm
    · intro h1 h2 h3
      rw [projectStatus_Status, ← h1, ← h2, ← h3]
      rfl

/-- C6, amended, on `syncedR`, whose stored status is already equal to the live
values. -/
theorem C6_status_written_on_every_successful_pass_witness :
    ∃ dep svc pre o,
      lookup (fun o => o.ObjectMeta.key) sampleReq
        (Reconcile syncedR sampleReq).2.deployments = some dep ∧
      lookup (fun o => o.ObjectMeta.key) sampleReq
        (Reconcile syncedR sampleReq).2.services = some svc ∧
      (Reconcile syncedR sampleReq).2.writes = syncedR.writes ++ pre ++ [.updateStatus o] ∧
      (∀ c ∈ pre, c.isStatus = false) ∧
      o.Status = { ReadyReplicas := dep.Status.ReadyReplicas,
                   AvailableReplicas := dep.Status.AvailableReplicas,
                   ServiceStatus := svc.Spec.Type_,
                   ConfigMapStatus := syncedCR.Status.ConfigMapStatus } ∧
      (syncedCR.Status.ReadyReplicas = dep.Status.ReadyReplicas →
        syncedCR.Status.AvailableReplicas = dep.Status.AvailableReplicas →
        syncedCR.Status.ServiceStatus = svc.Spec.Type_ →
        o.Status = syncedCR.Status) :=
  C6_status_written_on_every_successful_pass syncedR sampleReq syncedCR
    (Reconcile syncedR sampleReq).2 (by decide) (by decide) (by decide)

theorem Reconcile_converged (r : PretzelAIReconciler) (req : NamespacedName)
    (pretzelAI : PretzelAI)
    (hl : lookup (fun o => o.ObjectMeta.key) req r.pretzelais = some pretzelAI)
    (hz : Time.IsZero pretzelAI.ObjectMeta.DeletionTimestamp = true)
    (hc : containsString pretzelAI.ObjectMeta.Finalizers pretzelAIFinalizer = true)
    (hC : Converged r pretzelAI req) :
    (Reconcile r req).2.writes = r.writes ∨
    ∃ o, (Reconcile r req).2.writes = r.writes ++ [.updateStatus o] := by
  have hk := lookup_key _ _ _ _ hl
  have hns : req.Namespace = pretzelAI.ObjectMeta.Namespace := by rw [← hk]
  by_cases hf : r.faulty = true
  · rw [Reconcile_fault r req hf]
    exact Or.inl rfl
  have hf1 : r.faulty = false := by simpa using hf
  rw [Reconcile_found r req pretzelAI hf1 hl]
  simp only [hz, hc, Bool.true_eq_false, if_false]
  exact reconcileOwned_converged r.advance pretzelAI req hns hC

/-- On a store that keeps what it is given (`defaulting = false`): if a pass of
`Reconcile` on a desired-state object that carries the finalizer token and has no
deletion timestamp returns success, then a second pass run on the store the first one
left, whatever calls fail in it, appends to the log no create and no update of a
Workload, an Exposure or a ConfigBundle. -/
theorem second_pass_on_faithful_store (r : PretzelAIReconciler)
    (req : NamespacedName) (pretzelAI : PretzelAI) (r1 : PretzelAIReconciler)
    (hd : r.defaulting = false)
    (hl : lookup (fun o => o.ObjectMeta.key) req r.pretzelais = some pretzelAI)
    (hz : Time.IsZero pretzelAI.ObjectMeta.DeletionTimestamp = true)
    (hc : containsString pretzelAI.ObjectMeta.Finalizers pretzelAIFinalizer = true)
    (h : Reconcile r req = (.ok (), r1)) :
    ∃ new, (Reconcile r1 req).2.writes = r1.writes ++ new ∧
      ∀ c ∈ new, c.isOwned = false := by
  have hk := lookup_key _ _ _ _ hl
  have hns : req.Namespace = pretzelAI.ObjectMeta.Namespace := by rw [← hk]
  by_cases hf : r.faulty = true
  · rw [Reconcile_fault r req hf] at h
    simp at h
  have hf1 : r.faulty = false := by simpa using hf
  rw [Reconcile_found r req pretzelAI hf1 hl] at h
  simp only [hz, hc, Bool.true_eq_false, if_false] at h
  obtain ⟨hC, -, -, dep, svc, pre, -, -, hp, -, -⟩ :=
    reconcileOwned_ok r.advance pretzelAI pretzelAI req r1 hns (by rw [hk]; exact hl) h
  rw [hk] at hp
  have hC2 : Converged r1 { pretzelAI with Status := (projectStatus pretzelAI dep svc).Status }
      req := hC hd
  rcases Reconcile_converged r1 req
      { pretzelAI with Status := (projectStatus pretzelAI dep svc).Status } hp hz hc hC2
    with hw | ⟨o, hw⟩
  · exact ⟨[], by simpa using hw, by simp⟩
  · exact ⟨[.updateStatus o], hw, by simp [Write.isOwned]⟩

/-- C7, the failing input: the store of `apiServerR` is an API server and holds only
`sampleCR`, which carries the token and has no deletion timestamp.  The first pass
succeeds and creates the three owned resources; the Exposure is stored with protocol
`TCP` in its port.  The second pass, on the store the first one left and with the same
spec, succeeds too and issues an update of the Exposure: `ensureService` compares the
whole port list, protocol included, with the list it builds, whose protocol is empty.
The update is stored with the default again, so the third pass repeats it. -/
theorem C7_defaulting_store_updates_exposure_every_pass :
    apiServerR.defaulting = true ∧
    lookup (fun o => o.ObjectMeta.key) sampleReq apiServerR.pretzelais = some sampleCR ∧
    containsString sampleCR.ObjectMeta.Finalizers pretzelAIFinalizer = true ∧
    Time.IsZero sampleCR.ObjectMeta.DeletionTimestamp = true ∧
    (Reconcile apiServerR sampleReq).1 = .ok () ∧
    (Reconcile apiServerR sampleReq).2.writes =
      [.createConfigMap (ownedConfigMap sampleCR sampleReq),
       .createDeployment (ownedDeployment sampleCR 2),
       .createService (ownedService sampleCR),
       .updateStatus { sampleCR with Status := { ServiceStatus := "ClusterIP" } }] ∧
    (lookup (fun o => o.ObjectMeta.key) sampleReq
      (Reconcile apiServerR sampleReq).2.services).map (fun o => o.Spec.Ports)
      = some [{ Protocol := "TCP", Port := 80, TargetPort := FromInt 8888 }] ∧
    (lookup (fun o => o.ObjectMeta.key) sampleReq
      (Reconcile apiServerR sampleReq).2.pretzelais).map (fun o => o.Spec)
      = some sampleCR.Spec ∧
    (Reconcile (Reconcile apiServerR sampleReq).2 sampleReq).1 = .ok () ∧
    (Reconcile (Reconcile apiServerR sampleReq).2 sampleReq).2.writes =
      (Reconcile apiServerR sampleReq).2.writes ++
        [.updateService (ownedService sampleCR),
         .updateStatus { sampleCR with Status := { ServiceStatus := "ClusterIP" } }] ∧
    (Reconcile (Reconcile (Reconcile apiServerR sampleReq).2 sampleReq).2 sampleReq).2.writes =
      (Reconcile (Reconcile apiServerR sampleReq).2 sampleReq).2.writes ++
        [.updateService (ownedService sampleCR),
         .updateStatus { sampleCR with Status := { ServiceStatus := "ClusterIP" } }] := by
  decide

/-- C8: when the live Workload has at least one container and its replica count
differs from the requested one, and the two client calls succeed, `ensureDeployment`
issues exactly one write, an update of the live Workload in which the replica count is
the requested one and the image of the first container is the desired image; metadata,
selector, pod-template metadata, status, the other fields of the first container and
the other containers are those of the live Workload, and the store holds the update. -/
theorem C8_replica_drift_is_patched (r : PretzelAIReconciler) (pretzelAI : PretzelAI)
    (replicas : Int) (existing : Deployment) (c : Container) (cs : List Container)
    (hs : r.Scheme = true) (hget : r.faulty = false) (hupd : r.advance.faulty = false)
    (hl : lookup (fun o => o.ObjectMeta.key) pretzelAI.ObjectMeta.key r.deployments
      = some existing)
    (hc : existing.Spec.Template.Spec.Containers = c :: cs)
    (hrep : existing.Spec.Replicas ≠ some replicas) :
    ∃ updated r2,
      ensureDeployment r pretzelAI replicas = (.ok updated, r2) ∧
      r2.writes = r.writes ++ [.updateDeployment updated] ∧
      lookup (fun o => o.ObjectMeta.key) pretzelAI.ObjectMeta.key r2.deployments
        = some updated ∧
      updated.Spec.Replicas = some replicas ∧
      firstImage updated.Spec = firstImage (desiredDeployment pretzelAI replicas).Spec ∧
      updated.Spec.Template.Spec.Containers = { c with Image := "pretzelai:local" } :: cs ∧
      updated.ObjectMeta = existing.ObjectMeta ∧
      updated.Spec.Selector = existing.Spec.Selector ∧
      updated.Spec.Template.ObjectMeta = existing.Spec.Template.ObjectMeta ∧
      updated.Status = existing.Status := by
  have hk := lookup_key _ _ _ _ hl
  have hn : needsUpdate existing.Spec (desiredDeployment pretzelAI replicas).Spec = true := by
    cases hr : existing.Spec.Replicas with
    | none => simp [needsUpdate, hr]
    | some n =>
      have : n ≠ replicas := fun e => hrep (by rw [hr, e])
      simp [needsUpdate, hr, this]
  refine ⟨patchedDeployment existing replicas c cs,
    { r.advance.record (.updateDeployment (patchedDeployment existing replicas c cs)) with
      deployments := store (fun o => o.ObjectMeta.key)
        (patchedDeployment existing replicas c cs) r.deployments }, ?_, rfl, ?_, rfl, ?_, rfl,
    rfl, rfl, rfl, rfl⟩
  · rw [ensureDeployment_eq, hl]
    simp [hs, hget, hupd, hn, hc]
  · exact lookup_store_key (fun o => o.ObjectMeta.key)
      (patchedDeployment existing replicas c cs) r.deployments existing _ hk hl
  · rw [desiredDeployment_firstImage]
    simp [firstImage, patchedDeployment]

/-- C8 on `driftedR`: the live Workload has 5 replicas, 2 are requested. -/
theorem C8_replica_drift_is_patched_witness :
    ∃ updated r2,
      ensureDeployment driftedR sampleCR 2 = (.ok updated, r2) ∧
      r2.writes = driftedR.writes ++ [.updateDeployment updated] ∧
      lookup (fun o => o.ObjectMeta.key) sampleCR.ObjectMeta.key r2.deployments
        = some updated ∧
      updated.Spec.Replicas = some 2 ∧
      firstImage updated.Spec = firstImage (desiredDeployment sampleCR 2).Spec ∧
      updated.Spec.Template.Spec.Containers =
        { ({ Name := "pretzelai", Image := "pretzelai:old", ImagePullPolicy := "Always",
             Ports := [{ ContainerPort := 8888, Protocol := "TCP" }] } : Container) with
          Image := "pretzelai:local" } :: [{ Name := "sidecar", Image := "envoy:1" }] ∧
      updated.ObjectMeta = driftedDeployment.ObjectMeta ∧
      updated.Spec.Selector = driftedDeployment.Spec.Selector ∧
      updated.Spec.Template.ObjectMeta = driftedDeployment.Spec.Template.ObjectMeta ∧
      updated.Status = driftedDeployment.Status :=
  C8_replica_drift_is_patched driftedR sampleCR 2 driftedDeployment
    { Name := "pretzelai", Image := "pretzelai:old", ImagePullPolicy := "Always",
      Ports := [{ ContainerPort := 8888, Protocol := "TCP" }] }
    [{ Name := "sidecar", Image := "envoy:1" }]
    (by decide) (by decide) (by decide) (by decide) (by decide) (by decide)

/-- C9: when the lookup succeeds and the watched fields of the live resource equal the
desired ones (Workload: replica count and image of the first container; Exposure: port
list; ConfigBundle: data), whatever its other fields are, the converger returns the
live object and leaves the reconciler as it was but for one tick of the clock: no
write is logged and no store changes. -/
theorem C9_equal_watched_fields_no_update (r : PretzelAIReconciler) (pretzelAI : PretzelAI)
    (req : NamespacedName) (replicas : Int)
    (hs : r.Scheme = true) (hget : r.faulty = false)
    (hns : req.Namespace = pretzelAI.ObjectMeta.Namespace) :
    (∀ live : Deployment,
      lookup (fun o => o.ObjectMeta.key) pretzelAI.ObjectMeta.key r.deployments = some live →
      live.Spec.Replicas = some replicas →
      (∀ c ∈ live.Spec.Template.Spec.Containers.head?, c.Image = "pretzelai:local") →
      ensureDeployment r pretzelAI replicas = (.ok live, { r with tick := r.tick + 1 })) ∧
    (∀ live : Service,
      lookup (fun o => o.ObjectMeta.key) pretzelAI.ObjectMeta.key r.services = some live →
      live.Spec.Ports = [{ Port := 80, TargetPort := FromInt 8888 }] →
      ensureService r pretzelAI = (.ok live, { r with tick := r.tick + 1 })) ∧
    (∀ live : ConfigMap,
      pretzelAI.Spec.ConfigMapName ≠ "" →
      lookup (fun o => o.ObjectMeta.key) ⟨req.Namespace, pretzelAI.Spec.ConfigMapName⟩
        r.configMaps = some live →
      live.Data = [("config.yaml", "example: value")] →
      reconcileConfigMap r pretzelAI req = (none, { r with tick := r.tick + 1 })) := by
  refine ⟨?_, ?_, ?_⟩
  · intro live hl hrep himg
    have hn : needsUpdate live.Spec (desiredDeployment pretzelAI replicas).Spec = false := by
      cases hc : live.Spec.Template.Spec.Containers with
      | nil => simp [needsUpdate, hrep, hc]
      | cons c cs =>
        have : c.Image = "pretzelai:local" := himg c (by simp [hc])
        have hfi : firstImage live.Spec = some "pretzelai:local" := by
          simp [firstImage, hc, this]
        simp [needsUpdate, hrep, hfi]
    rw [ensureDeployment_converged r pretzelAI replicas live hl hn]
    simp [hs, hget, PretzelAIReconciler.advance]
  · intro live hl hports
    rw [ensureService_converged r pretzelAI live hl (by rw [hports]; rfl)]
    simp [hs, hget, PretzelAIReconciler.advance]
  · intro live hname hl hdata
    rw [reconcileConfigMap_converged r pretzelAI req hns live hl (by rw [hdata]; rfl)]
    simp [hs, hget, hname, PretzelAIReconciler.advance]

/-- C9 on `liveR`, whose three live resources carry platform-added labels,
annotations, a resource version, a second container, a status and the type NodePort. -/
theorem C9_equal_watched_fields_no_update_witness :
    ensureDeployment liveR sampleCR 2 = (.ok liveDeployment, { liveR with tick := 1 }) ∧
    ensureService liveR sampleCR = (.ok liveService, { liveR with tick := 1 }) ∧
    reconcileConfigMap liveR sampleCR sampleReq = (none, { liveR with tick := 1 }) :=
  ⟨(C9_equal_watched_fields_no_update liveR sampleCR sampleReq 2 (by decide) (by decide)
      (by decide)).1 liveDeployment (by decide) (by decide) (by decide),
   (C9_equal_watched_fields_no_update liveR sampleCR sampleReq 2 (by decide) (by decide)
      (by decide)).2.1 liveService (by decide) (by decide),
   (C9_equal_watched_fields_no_update liveR sampleCR sampleReq 2 (by decide) (by decide)
      (by decide)).2.2 liveConfigMap (by decide) (by decide) (by decide)⟩

end PretzelAIOperator
